import Mathlib

/-!
Verification of the haschain execution stack (a TypeScript Ethereum-style
node) against its natural-language specification.

The TypeScript sources are shallowly embedded: JS `Map`s become
insertion-ordered association lists, `bigint`/`number` become `Nat` (with
explicit `% 2^256` where the source masks), `Uint8Array` becomes
`List Nat`, thrown exceptions become `Except`/`Option` results, and the
VM's `while` loop gets an explicit fuel parameter.  The source keys its
maps by the hexadecimal rendering of addresses and storage words; that
rendering is injective on byte arrays / words, so the model keys the maps
by the values themselves.
-/

namespace HasChain

/-- VM words: the source uses `bigint` values kept in `[0, 2^256)`. -/
abbrev Word := Nat

/-- Byte strings (`Uint8Array`): lists of byte values. -/
abbrev Bytes := List Nat

/-- Addresses: 20-byte `Uint8Array`s in the source. -/
abbrev Addr := List Nat

/-- Insertion-ordered association-list lookup, mirroring `Map.get`. -/
def getA {α β : Type} [DecidableEq α] : List (α × β) → α → Option β
  | [], _ => none
  | (k, v) :: rest, key => if k = key then some v else getA rest key

/-- Insertion-ordered association-list update, mirroring `Map.set`:
replace in place when the key exists, append otherwise. -/
def setA {α β : Type} [DecidableEq α] : List (α × β) → α → β → List (α × β)
  | [], key, value => [(key, value)]
  | (k, v) :: rest, key, value =>
    if k = key then (k, value) :: rest else (k, v) :: setA rest key value

/-- Association-list deletion, mirroring `Map.delete`. -/
def eraseA {α β : Type} [DecidableEq α] : List (α × β) → α → List (α × β)
  | [], _ => []
  | (k, v) :: rest, key => if k = key then eraseA rest key else (k, v) :: eraseA rest key

/-! ## World State (`src/evm/worldState.ts`)

`InMemoryWorldState` keeps accounts and per-address storage in `Map`s and
supports whole-state snapshots.  Storage reads and writes go through the
separate `storages` map; the `storage` field carried inside `Account` is
copied around but never consulted by the world-state operations. -/

/-- Account shape from `src/evm/types.ts`. -/
structure Account where
  address : Addr
  nonce : Nat
  balance : Nat
  code : Bytes
  storage : List (Word × Word)
  deriving Repr, DecidableEq

/-- Snapshot record from `src/evm/worldState.ts`: deep copies of both maps
plus the snapshot counter (taken after its increment). -/
structure Snapshot where
  accounts : List (Addr × Account)
  storages : List (Addr × List (Word × Word))
  nextSnapshotId : Nat
  deriving Repr, DecidableEq

/-- Failure modes of `InMemoryWorldState` (thrown `Error`s in the source). -/
inductive WsErr where
  | insufficientBalance
  | snapshotNotFound
  deriving Repr, DecidableEq

/-- In-memory world state (`InMemoryWorldState`). -/
structure WorldState where
  accounts : List (Addr × Account)
  storages : List (Addr × List (Word × Word))
  snapshots : List (Nat × Snapshot)
  nextSnapshotId : Nat
  currentSnapshotId : Option Nat
  deriving Repr, DecidableEq

namespace WorldState

/-- The empty world (`new InMemoryWorldState()`). -/
def empty : WorldState :=
  { accounts := [], storages := [], snapshots := [], nextSnapshotId := 1,
    currentSnapshotId := none }

/-- Source `getAccount`. -/
def getAccount (w : WorldState) (address : Addr) : Option Account :=
  getA w.accounts address

/-- Source `putAccount` (the defensive copy is implicit in value semantics). -/
def putAccount (w : WorldState) (account : Account) : WorldState :=
  { w with accounts := setA w.accounts account.address account }

/-- Source `accountExists`. -/
def accountExists (w : WorldState) (address : Addr) : Bool :=
  (getAccount w address).isSome

/-- Source `getStorage`: zero when the address or the slot is unset. -/
def getStorage (w : WorldState) (address : Addr) (key : Word) : Word :=
  match getA w.storages address with
  | none => 0
  | some storage => (getA storage key).getD 0

/-- Source `setStorage`: materialises the per-address map, then stores the
value, deleting the slot when the value is zero. -/
def setStorage (w : WorldState) (address : Addr) (key value : Word) : WorldState :=
  let storage := (getA w.storages address).getD []
  if value = 0 then
    { w with storages := setA w.storages address (eraseA storage key) }
  else
    { w with storages := setA w.storages address (setA storage key value) }

/-- Source `getBalance`. -/
def getBalance (w : WorldState) (address : Addr) : Nat :=
  match getAccount w address with
  | none => 0
  | some account => account.balance

/-- Fresh account record created by the lazy-creation branches. -/
def freshAccount (address : Addr) : Account :=
  { address := address, nonce := 0, balance := 0, code := [], storage := [] }

/-- Source `addBalance`: returns unchanged when the amount is zero,
creating the account lazily otherwise. -/
def addBalance (w : WorldState) (address : Addr) (amount : Nat) : WorldState :=
  if amount = 0 then w
  else
    let account := (getAccount w address).getD (freshAccount address)
    putAccount w { account with balance := account.balance + amount }

/-- Source `subBalance`: throws `Insufficient balance` when the account is
missing or underfunded. -/
def subBalance (w : WorldState) (address : Addr) (amount : Nat) :
    Except WsErr WorldState :=
  if amount = 0 then .ok w
  else
    match getAccount w address with
    | none => .error .insufficientBalance
    | some account =>
      if account.balance < amount then .error .insufficientBalance
      else .ok (putAccount w { account with balance := account.balance - amount })

/-- Source `getNonce`. -/
def getNonce (w : WorldState) (address : Addr) : Nat :=
  match getAccount w address with
  | none => 0
  | some account => account.nonce

/-- Source `incrementNonce` (lazy account creation). -/
def incrementNonce (w : WorldState) (address : Addr) : WorldState :=
  let account := (getAccount w address).getD (freshAccount address)
  putAccount w { account with nonce := account.nonce + 1 }

/-- Source `setNonce` (lazy account creation). -/
def setNonce (w : WorldState) (address : Addr) (nonce : Nat) : WorldState :=
  let account := (getAccount w address).getD (freshAccount address)
  putAccount w { account with nonce := nonce }

/-- Source `getCode`. -/
def getCode (w : WorldState) (address : Addr) : Bytes :=
  match getAccount w address with
  | none => []
  | some account => account.code

/-- Source `setCode` (lazy account creation). -/
def setCode (w : WorldState) (address : Addr) (code : Bytes) : WorldState :=
  let account := (getAccount w address).getD (freshAccount address)
  putAccount w { account with code := code }

/-- Source `snapshot`: allocates the next id, deep-copies both maps (value
semantics make the copy implicit) and records the incremented counter. -/
def snapshot (w : WorldState) : Nat × WorldState :=
  let snapshotId := w.nextSnapshotId
  let snap : Snapshot :=
    { accounts := w.accounts, storages := w.storages,
      nextSnapshotId := w.nextSnapshotId + 1 }
  (snapshotId,
    { w with
      nextSnapshotId := w.nextSnapshotId + 1,
      snapshots := setA w.snapshots snapshotId snap,
      currentSnapshotId := some snapshotId })

/-- Source `revert`: restores the maps from the snapshot, drops snapshots
with a strictly larger id, and keeps the reverted-to snapshot itself. -/
def revert (w : WorldState) (snapshotId : Nat) : Except WsErr WorldState :=
  match getA w.snapshots snapshotId with
  | none => .error .snapshotNotFound
  | some snap =>
    .ok { accounts := snap.accounts,
          storages := snap.storages,
          nextSnapshotId := snap.nextSnapshotId,
          snapshots := w.snapshots.filter (fun p => ¬ (snapshotId < p.1)),
          currentSnapshotId := some snapshotId }

/-- Source `commit` with an explicit id: deletes the snapshot with that id
and every later one; it never touches accounts or storage. -/
def commitWith (w : WorldState) (snapshotId : Nat) : WorldState :=
  { w with snapshots := w.snapshots.filter (fun p => p.1 < snapshotId) }

/-- Source `commit` without an argument: drops only the current snapshot. -/
def commitCurrent (w : WorldState) : WorldState :=
  match w.currentSnapshotId with
  | none => w
  | some snapshotId =>
    { w with snapshots := eraseA w.snapshots snapshotId, currentSnapshotId := none }

end WorldState

/-! ## Mutation sequences for the snapshot round-trip claim -/

/-- One world-state mutation (balance, nonce, code or storage change), the
vocabulary quantified over in the snapshot round-trip property. -/
inductive Mutation where
  | addBalance (address : Addr) (amount : Nat)
  | subBalance (address : Addr) (amount : Nat)
  | setNonce (address : Addr) (nonce : Nat)
  | incrementNonce (address : Addr)
  | setCode (address : Addr) (code : Bytes)
  | setStorage (address : Addr) (key value : Word)
  | putAccount (account : Account)
  deriving Repr, DecidableEq

/-- Apply one mutation; `subBalance` can throw. -/
def applyMutation (w : WorldState) : Mutation → Except WsErr WorldState
  | .addBalance address amount => .ok (w.addBalance address amount)
  | .subBalance address amount => w.subBalance address amount
  | .setNonce address nonce => .ok (w.setNonce address nonce)
  | .incrementNonce address => .ok (w.incrementNonce address)
  | .setCode address code => .ok (w.setCode address code)
  | .setStorage address key value => .ok (w.setStorage address key value)
  | .putAccount account => .ok (w.putAccount account)

/-- Apply a sequence of mutations left to right, stopping at the first
thrown error. -/
def applyMutations (w : WorldState) : List Mutation → Except WsErr WorldState
  | [] => .ok w
  | m :: rest =>
    match applyMutation w m with
    | .error e => .error e
    | .ok w1 => applyMutations w1 rest

/-- Concrete world reached by the C2 witness: snapshot of the empty world,
then `addBalance([1], 5)` and `setStorage([1], 2, 3)`. -/
def c2Mutated : WorldState :=
  { accounts := [([1], { address := [1], nonce := 0, balance := 5, code := [],
                         storage := [] })],
    storages := [([1], [(2, 3)])],
    snapshots := [(1, { accounts := [], storages := [], nextSnapshotId := 2 })],
    nextSnapshotId := 2,
    currentSnapshotId := some 1 }

/-! ## Byte/word conversions (`src/evm/utils.ts`) -/

/-- Big-endian bytes of `v` over exactly `n` bytes. -/
def bytesOfBE (v n : Nat) : Bytes :=
  (List.range n).map (fun i => v / 256 ^ (n - 1 - i) % 256)

/-- Number of hex digits in `v.toString(16)` (one digit for zero). -/
def hexDigitCount (v : Nat) : Nat :=
  if v = 0 then 1 else Nat.log 16 v + 1

/-- Source `bigintToBytes(value, length)`: the hex string of `value`
left-padded with zeros to `2*length` digits, then decoded to bytes; a value
too large for `length` bytes yields a longer array (no truncation). -/
def bigintToBytes (value length : Nat) : Bytes :=
  let digits := max (hexDigitCount value) (2 * length)
  let digits := if digits % 2 = 1 then digits + 1 else digits
  bytesOfBE value (digits / 2)

/-- Source `bytesToBigint`: big-endian interpretation.  On an empty array
the source throws (`BigInt('0x')`); the one call site where that can
happen (the RLP header decoder) guards for it explicitly. -/
def bytesToBigint (bytes : Bytes) : Nat :=
  bytes.foldl (fun acc b => acc * 256 + b) 0

/-- Source `padBytes`: left-pad with zeros to `length` (identity when
already long enough). -/
def padBytes (bytes : Bytes) (length : Nat) : Bytes :=
  if length ≤ bytes.length then bytes
  else List.replicate (length - bytes.length) 0 ++ bytes

/-! ## Modular exponentiation (`expmod` in `src/evm/opcodes.ts`) -/

/-- Square-and-multiply loop of the source `expmod`. -/
def expmodLoop (modulus : Nat) (b e result : Nat) : Nat :=
  if e = 0 then result
  else
    expmodLoop modulus (b * b % modulus) (e / 2)
      (if e % 2 = 1 then result * b % modulus else result)
termination_by e
decreasing_by exact Nat.div_lt_self (Nat.pos_of_ne_zero (by assumption)) (by omega)

/-- Source `expmod(base, exponent, modulus)`: fast exponentiation. -/
def expmod (base exponent modulus : Nat) : Nat :=
  if modulus = 1 then 0 else expmodLoop modulus (base % modulus) exponent 1

/-! ## Execution context (`src/evm/executionContext.ts`) -/

/-- VM-level failures; each is a thrown `Error` in the source.
`swapCorner` stands for the source's out-of-range write in `swap` when the
stack holds exactly `index + 1` items: the JS code writes array index `-1`
and leaves `undefined` on top of the stack, poisoning the frame. -/
inductive VmErr where
  | stackOverflow
  | stackUnderflow
  | invalidStackValue
  | outOfGas
  | invalidJump
  | codeOutOfBounds
  | notPush
  | swapCorner
  deriving Repr, DecidableEq

/-- Execution environment (`Env` in `src/evm/types.ts`), block fields
inlined. -/
structure Env where
  address : Addr
  caller : Addr
  origin : Addr
  value : Nat
  gasPrice : Nat
  blockNumber : Nat
  blockTimestamp : Nat
  coinbase : Addr
  blockGasLimit : Nat
  chainId : Nat
  deriving Repr, DecidableEq

/-- Execution context: the mutable frame state.  The operand stack is
modelled with its top at the head of the list (the source pushes and pops
at the end of a JS array). -/
structure ExecutionContext where
  code : Bytes
  pc : Nat
  stack : List Word
  memory : Bytes
  gasLeft : Nat
  returnData : Bytes
  calldata : Bytes
  env : Env
  stopped : Bool
  reverted : Bool
  deriving Repr, DecidableEq

namespace ExecutionContext

/-- Fresh context (`new ExecutionContext(code, world, env, gasLimit,
calldata)`). -/
def init (code : Bytes) (env : Env) (gasLimit : Nat) (calldata : Bytes) :
    ExecutionContext :=
  { code := code, pc := 0, stack := [], memory := [], gasLeft := gasLimit,
    returnData := [], calldata := calldata, env := env,
    stopped := false, reverted := false }

/-- Source `push`: overflow above 1024 items, range check on the value. -/
def push (ctx : ExecutionContext) (value : Word) :
    Except (VmErr × ExecutionContext) ExecutionContext :=
  if 1024 ≤ ctx.stack.length then .error (.stackOverflow, ctx)
  else if 2 ^ 256 - 1 < value then .error (.invalidStackValue, ctx)
  else .ok { ctx with stack := value :: ctx.stack }

/-- Source `pop`. -/
def pop (ctx : ExecutionContext) :
    Except (VmErr × ExecutionContext) (Word × ExecutionContext) :=
  match ctx.stack with
  | [] => .error (.stackUnderflow, ctx)
  | v :: rest => .ok (v, { ctx with stack := rest })

/-- Source `useGas`. -/
def useGas (ctx : ExecutionContext) (amount : Nat) :
    Except (VmErr × ExecutionContext) ExecutionContext :=
  if ctx.gasLeft < amount then .error (.outOfGas, ctx)
  else .ok { ctx with gasLeft := ctx.gasLeft - amount }

/-- Source `jump`: the destination must be in bounds and the byte there
must equal `0x5b` (`JUMPDEST`); the source checks nothing else. -/
def jump (ctx : ExecutionContext) (destination : Nat) :
    Except (VmErr × ExecutionContext) ExecutionContext :=
  if ctx.code.length ≤ destination then .error (.invalidJump, ctx)
  else if ctx.code.getD destination 0 ≠ 0x5b then .error (.invalidJump, ctx)
  else .ok { ctx with pc := destination }

/-- Source `readMemory`: expands memory with zeros to `offset + size`
before slicing (no-op for size 0); returns the slice and the expanded
context. -/
def readMemory (ctx : ExecutionContext) (offset size : Nat) :
    Bytes × ExecutionContext :=
  if size = 0 then ([], ctx)
  else
    let required := offset + size
    let mem :=
      if ctx.memory.length < required then
        ctx.memory ++ List.replicate (required - ctx.memory.length) 0
      else ctx.memory
    ((mem.drop offset).take size, { ctx with memory := mem })

/-- Source `writeMemory`: expands memory with zeros to `offset +
data.length`, then overlays `data` at `offset` (no-op for empty data). -/
def writeMemory (ctx : ExecutionContext) (offset : Nat) (data : Bytes) :
    ExecutionContext :=
  if data = [] then ctx
  else
    let required := offset + data.length
    let mem :=
      if ctx.memory.length < required then
        ctx.memory ++ List.replicate (required - ctx.memory.length) 0
      else ctx.memory
    { ctx with memory := mem.take offset ++ data ++ mem.drop (offset + data.length) }

/-- Source `writeMemoryWord`: 32-byte big-endian store. -/
def writeMemoryWord (ctx : ExecutionContext) (offset : Nat) (value : Word) :
    ExecutionContext :=
  writeMemory ctx offset (bigintToBytes value 32)

/-- Source `readCalldata`: slice clipped to the calldata length, empty
when the offset is past the end. -/
def readCalldata (ctx : ExecutionContext) (offset size : Nat) : Bytes :=
  if ctx.calldata.length ≤ offset then []
  else (ctx.calldata.drop offset).take size

/-- Source `stop`: record return data and halt successfully. -/
def stop (ctx : ExecutionContext) (returnData : Bytes) : ExecutionContext :=
  { ctx with returnData := returnData, stopped := true }

/-- Source `revert`: record return data and halt as reverted. -/
def revertCtx (ctx : ExecutionContext) (returnData : Bytes) : ExecutionContext :=
  { ctx with returnData := returnData, reverted := true, stopped := true }

/-- Source `getCurrentOpcode`: `STOP` past the end of the code. -/
def getCurrentOpcode (ctx : ExecutionContext) : Nat :=
  ctx.code.getD ctx.pc 0

/-- Source `readBytes`: advance the pc over `count` code bytes, throwing
when they run past the end of the code. -/
def readBytes (ctx : ExecutionContext) (count : Nat) :
    Except (VmErr × ExecutionContext) (Bytes × ExecutionContext) :=
  if ctx.code.length < ctx.pc + count then .error (.codeOutOfBounds, ctx)
  else .ok ((ctx.code.drop ctx.pc).take count, { ctx with pc := ctx.pc + count })

/-- Source `readPushData`: consume the PUSH opcode and its immediate
bytes. -/
def readPushData (ctx : ExecutionContext) :
    Except (VmErr × ExecutionContext) (Bytes × ExecutionContext) :=
  let opcode := ctx.getCurrentOpcode
  if opcode < 0x60 ∨ 0x7f < opcode then .error (.notPush, ctx)
  else
    let pushBytes := opcode - 0x60 + 1
    readBytes { ctx with pc := ctx.pc + 1 } pushBytes

end ExecutionContext

/-! ## Opcode handlers (`createOpcodeHandlers` in `src/evm/opcodes.ts`)

Arithmetic notes: the source masks with `& ((1n << 256n) - 1n)`, which on
a non-negative JS bigint is reduction mod `2^256`; on the possibly
negative results of `SUB` and `NOT` the JS `&` acts on the two's
complement, which is again the value mod `2^256` — modelled through `Int`
division with Euclidean remainder. -/

/-- Source `SUB`: `(a - b) & mask` on bigints, i.e. `a - b` mod `2^256`. -/
def sub256 (a b : Nat) : Nat :=
  (((a : Int) - (b : Int)) % ((2 : Int) ^ 256)).toNat

/-- Source `NOT`: `~value & mask`, i.e. `-(value+1)` mod `2^256`. -/
def not256 (value : Nat) : Nat :=
  ((-((value : Int) + 1)) % ((2 : Int) ^ 256)).toNat

/-- Source `SAR` result: all-ones/zero for shifts ≥ 256 according to the
sign bit, otherwise a right shift with ones filled in from the left for
negative values. -/
def sar256 (shift value : Nat) : Nat :=
  let isNegative := 2 ^ 255 ≤ value
  if 256 ≤ shift then (if isNegative then 2 ^ 256 - 1 else 0)
  else
    let result := value >>> shift
    let result :=
      if isNegative then result ||| (((1 <<< shift) - 1) <<< (256 - shift))
      else result
    result % 2 ^ 256

namespace ExecutionContext

/-- Shape shared by the binary-operator handlers: charge gas, pop `a` then
`b`, push `f a b`. -/
def binHandler (ctx : ExecutionContext) (cost : Nat) (f : Word → Word → Word) :
    Except (VmErr × ExecutionContext) ExecutionContext :=
  match ctx.useGas cost with
  | .error e => .error e
  | .ok c1 =>
    match c1.pop with
    | .error e => .error e
    | .ok (a, c2) =>
      match c2.pop with
      | .error e => .error e
      | .ok (b, c3) => c3.push (f a b)

/-- Shape shared by the unary-operator handlers (`ISZERO`, `NOT`). -/
def unHandler (ctx : ExecutionContext) (cost : Nat) (f : Word → Word) :
    Except (VmErr × ExecutionContext) ExecutionContext :=
  match ctx.useGas cost with
  | .error e => .error e
  | .ok c1 =>
    match c1.pop with
    | .error e => .error e
    | .ok (a, c2) => c2.push (f a)

/-- Shape shared by the handlers that only push a value read from the
context (`ADDRESS`, `CALLER`, `CALLVALUE`, `CALLDATASIZE`, `CODESIZE`,
`PC`, `MSIZE`, `GAS`, `PUSH0`); the value is read after the gas charge,
which matters for `GAS`. -/
def pushOfHandler (ctx : ExecutionContext) (cost : Nat)
    (f : ExecutionContext → Word) :
    Except (VmErr × ExecutionContext) ExecutionContext :=
  match ctx.useGas cost with
  | .error e => .error e
  | .ok c1 => c1.push (f c1)

/-- Source `STOP` handler. -/
def stopHandler (ctx : ExecutionContext) :
    Except (VmErr × ExecutionContext) ExecutionContext :=
  match ctx.useGas 0 with
  | .error e => .error e
  | .ok c1 => .ok (c1.stop [])

/-- Source `CALLDATALOAD` handler: 32 bytes right-padded with zeros. -/
def calldataloadHandler (ctx : ExecutionContext) :
    Except (VmErr × ExecutionContext) ExecutionContext :=
  match ctx.useGas 3 with
  | .error e => .error e
  | .ok c1 =>
    match c1.pop with
    | .error e => .error e
    | .ok (offset, c2) =>
      let data := c2.readCalldata offset 32
      let padded := data ++ List.replicate (32 - data.length) 0
      c2.push (bytesToBigint padded)

/-- Source `CALLDATACOPY` handler. -/
def calldatacopyHandler (ctx : ExecutionContext) :
    Except (VmErr × ExecutionContext) ExecutionContext :=
  match ctx.useGas 3 with
  | .error e => .error e
  | .ok c1 =>
    match c1.pop with
    | .error e => .error e
    | .ok (destOffset, c2) =>
      match c2.pop with
      | .error e => .error e
      | .ok (offset, c3) =>
        match c3.pop with
        | .error e => .error e
        | .ok (size, c4) => .ok (c4.writeMemory destOffset (c4.readCalldata offset size))

/-- Source `CODECOPY` handler: clipped copy, zero-padded to `size`. -/
def codecopyHandler (ctx : ExecutionContext) :
    Except (VmErr × ExecutionContext) ExecutionContext :=
  match ctx.useGas 3 with
  | .error e => .error e
  | .ok c1 =>
    match c1.pop with
    | .error e => .error e
    | .ok (destOffset, c2) =>
      match c2.pop with
      | .error e => .error e
      | .ok (offset, c3) =>
        match c3.pop with
        | .error e => .error e
        | .ok (size, c4) =>
          let codeEnd := min (offset + size) c4.code.length
          let actualSize := codeEnd - offset
          let data := (c4.code.drop offset).take (codeEnd - offset)
          if actualSize < size then
            .ok (c4.writeMemory destOffset (data ++ List.replicate (size - actualSize) 0))
          else .ok (c4.writeMemory destOffset data)

/-- Source `POP` handler. -/
def popHandler (ctx : ExecutionContext) :
    Except (VmErr × ExecutionContext) ExecutionContext :=
  match ctx.useGas 2 with
  | .error e => .error e
  | .ok c1 =>
    match c1.pop with
    | .error e => .error e
    | .ok (_, c2) => .ok c2

/-- Source `MLOAD` handler. -/
def mloadHandler (ctx : ExecutionContext) :
    Except (VmErr × ExecutionContext) ExecutionContext :=
  match ctx.useGas 3 with
  | .error e => .error e
  | .ok c1 =>
    match c1.pop with
    | .error e => .error e
    | .ok (offset, c2) =>
      let (data, c3) := c2.readMemory offset 32
      c3.push (bytesToBigint (padBytes data 32))

/-- Source `MSTORE` handler. -/
def mstoreHandler (ctx : ExecutionContext) :
    Except (VmErr × ExecutionContext) ExecutionContext :=
  match ctx.useGas 3 with
  | .error e => .error e
  | .ok c1 =>
    match c1.pop with
    | .error e => .error e
    | .ok (offset, c2) =>
      match c2.pop with
      | .error e => .error e
      | .ok (value, c3) => .ok (c3.writeMemoryWord offset value)

/-- Source `MSTORE8` handler: stores the low byte. -/
def mstore8Handler (ctx : ExecutionContext) :
    Except (VmErr × ExecutionContext) ExecutionContext :=
  match ctx.useGas 3 with
  | .error e => .error e
  | .ok c1 =>
    match c1.pop with
    | .error e => .error e
    | .ok (offset, c2) =>
      match c2.pop with
      | .error e => .error e
      | .ok (value, c3) => .ok (c3.writeMemory offset [value % 256])

/-- Source `SLOAD` handler. -/
def sloadHandler (ctx : ExecutionContext) (w : WorldState) :
    Except (VmErr × ExecutionContext) (ExecutionContext × WorldState) :=
  match ctx.useGas 50 with
  | .error e => .error e
  | .ok c1 =>
    match c1.pop with
    | .error e => .error e
    | .ok (key, c2) =>
      match c2.push (w.getStorage c2.env.address key) with
      | .error e => .error e
      | .ok c3 => .ok (c3, w)

/-- Source `SSTORE` handler (flat cost 20000). -/
def sstoreHandler (ctx : ExecutionContext) (w : WorldState) :
    Except (VmErr × ExecutionContext) (ExecutionContext × WorldState) :=
  match ctx.useGas 20000 with
  | .error e => .error e
  | .ok c1 =>
    match c1.pop with
    | .error e => .error e
    | .ok (key, c2) =>
      match c2.pop with
      | .error e => .error e
      | .ok (value, c3) => .ok (c3, w.setStorage c3.env.address key value)

/-- Source `JUMP` handler. -/
def jumpHandler (ctx : ExecutionContext) :
    Except (VmErr × ExecutionContext) ExecutionContext :=
  match ctx.useGas 8 with
  | .error e => .error e
  | .ok c1 =>
    match c1.pop with
    | .error e => .error e
    | .ok (destination, c2) => c2.jump destination

/-- Source `JUMPI` handler: jumps on a non-zero condition, otherwise
advances the pc itself. -/
def jumpiHandler (ctx : ExecutionContext) :
    Except (VmErr × ExecutionContext) ExecutionContext :=
  match ctx.useGas 10 with
  | .error e => .error e
  | .ok c1 =>
    match c1.pop with
    | .error e => .error e
    | .ok (destination, c2) =>
      match c2.pop with
      | .error e => .error e
      | .ok (condition, c3) =>
        if condition ≠ 0 then c3.jump destination
        else .ok { c3 with pc := c3.pc + 1 }

/-- Source `JUMPDEST` handler: a gas-1 no-op marker. -/
def jumpdestHandler (ctx : ExecutionContext) :
    Except (VmErr × ExecutionContext) ExecutionContext :=
  ctx.useGas 1

/-- Source `PUSH1`..`PUSH32` handler: immediate bytes, left-padded to a
32-byte big-endian word. -/
def pushNHandler (ctx : ExecutionContext) :
    Except (VmErr × ExecutionContext) ExecutionContext :=
  match ctx.useGas 3 with
  | .error e => .error e
  | .ok c1 =>
    match c1.readPushData with
    | .error e => .error e
    | .ok (data, c2) => c2.push (bytesToBigint (padBytes data 32))

/-- Source `dup(index)` (`DUP1` has index 0): copy the stack item `index`
positions below the top. -/
def dupHandler (ctx : ExecutionContext) (index : Nat) :
    Except (VmErr × ExecutionContext) ExecutionContext :=
  match ctx.useGas 3 with
  | .error e => .error e
  | .ok c1 =>
    if c1.stack.length ≤ index then .error (.stackUnderflow, c1)
    else c1.push (c1.stack.getD index 0)

/-- Source `swap(index)` (`SWAP1` has index 0): exchange the top with the
item `index + 1` positions below it.  When the stack holds exactly
`index + 1` items the source writes JS array index `-1` and corrupts the
top with `undefined`; that corner is modelled as the `swapCorner` error. -/
def swapHandler (ctx : ExecutionContext) (index : Nat) :
    Except (VmErr × ExecutionContext) ExecutionContext :=
  match ctx.useGas 3 with
  | .error e => .error e
  | .ok c1 =>
    if c1.stack.length ≤ index then .error (.stackUnderflow, c1)
    else if c1.stack.length = index + 1 then .error (.swapCorner, c1)
    else
      let top := c1.stack.getD 0 0
      let target := c1.stack.getD (index + 1) 0
      .ok { c1 with stack := (c1.stack.set 0 target).set (index + 1) top }

/-- Source `RETURN` handler: halt successfully with a memory slice. -/
def returnHandler (ctx : ExecutionContext) :
    Except (VmErr × ExecutionContext) ExecutionContext :=
  match ctx.useGas 0 with
  | .error e => .error e
  | .ok c1 =>
    match c1.pop with
    | .error e => .error e
    | .ok (offset, c2) =>
      match c2.pop with
      | .error e => .error e
      | .ok (size, c3) =>
        let (data, c4) := c3.readMemory offset size
        .ok (c4.stop data)

/-- Source `REVERT` handler: halt as reverted, preserving the return
data. -/
def revertHandler (ctx : ExecutionContext) :
    Except (VmErr × ExecutionContext) ExecutionContext :=
  match ctx.useGas 0 with
  | .error e => .error e
  | .ok c1 =>
    match c1.pop with
    | .error e => .error e
    | .ok (offset, c2) =>
      match c2.pop with
      | .error e => .error e
      | .ok (size, c3) =>
        let (data, c4) := c3.readMemory offset size
        .ok (c4.revertCtx data)

end ExecutionContext

/-- Pair a world-independent handler result with the unchanged world. -/
def withWorld (r : Except (VmErr × ExecutionContext) ExecutionContext)
    (w : WorldState) :
    Except (VmErr × ExecutionContext) (ExecutionContext × WorldState) :=
  match r with
  | .error e => .error e
  | .ok ctx => .ok (ctx, w)

/-- Dispatch table of `createOpcodeHandlers`: `none` for the opcodes the
source registers no handler for (they make the frame revert). -/
def runOpcode (op : Nat) (ctx : ExecutionContext) (w : WorldState) :
    Option (Except (VmErr × ExecutionContext) (ExecutionContext × WorldState)) :=
  if op = 0x00 then some (withWorld ctx.stopHandler w)
  else if op = 0x01 then
    some (withWorld (ctx.binHandler 3 (fun a b => (a + b) % 2 ^ 256)) w)
  else if op = 0x02 then
    some (withWorld (ctx.binHandler 5 (fun a b => (a * b) % 2 ^ 256)) w)
  else if op = 0x03 then
    some (withWorld (ctx.binHandler 3 (fun a b => sub256 a b)) w)
  else if op = 0x04 then
    some (withWorld (ctx.binHandler 5 (fun a b => if b = 0 then 0 else a / b)) w)
  else if op = 0x06 then
    some (withWorld (ctx.binHandler 5 (fun a b => if b = 0 then 0 else a % b)) w)
  else if op = 0x0a then
    some (withWorld (ctx.binHandler 10 (fun base exponent => expmod base exponent (2 ^ 256))) w)
  else if op = 0x10 then
    some (withWorld (ctx.binHandler 3 (fun a b => if a < b then 1 else 0)) w)
  else if op = 0x11 then
    some (withWorld (ctx.binHandler 3 (fun a b => if b < a then 1 else 0)) w)
  else if op = 0x14 then
    some (withWorld (ctx.binHandler 3 (fun a b => if a = b then 1 else 0)) w)
  else if op = 0x15 then
    some (withWorld (ctx.unHandler 3 (fun value => if value = 0 then 1 else 0)) w)
  else if op = 0x16 then
    some (withWorld (ctx.binHandler 3 (fun a b => a &&& b)) w)
  else if op = 0x17 then
    some (withWorld (ctx.binHandler 3 (fun a b => a ||| b)) w)
  else if op = 0x18 then
    some (withWorld (ctx.binHandler 3 (fun a b => a ^^^ b)) w)
  else if op = 0x19 then
    some (withWorld (ctx.unHandler 3 (fun value => not256 value)) w)
  else if op = 0x1b then
    some (withWorld (ctx.binHandler 3
      (fun shift value => if 256 ≤ shift then 0 else (value <<< shift) % 2 ^ 256)) w)
  else if op = 0x1c then
    some (withWorld (ctx.binHandler 3
      (fun shift value => if 256 ≤ shift then 0 else value >>> shift)) w)
  else if op = 0x1d then
    some (withWorld (ctx.binHandler 3 (fun shift value => sar256 shift value)) w)
  else if op = 0x30 then
    some (withWorld (ctx.pushOfHandler 2 (fun c => bytesToBigint c.env.address)) w)
  else if op = 0x33 then
    some (withWorld (ctx.pushOfHandler 2 (fun c => bytesToBigint c.env.caller)) w)
  else if op = 0x34 then
    some (withWorld (ctx.pushOfHandler 2 (fun c => c.env.value)) w)
  else if op = 0x35 then some (withWorld ctx.calldataloadHandler w)
  else if op = 0x36 then
    some (withWorld (ctx.pushOfHandler 2 (fun c => c.calldata.length)) w)
  else if op = 0x37 then some (withWorld ctx.calldatacopyHandler w)
  else if op = 0x38 then
    some (withWorld (ctx.pushOfHandler 2 (fun c => c.code.length)) w)
  else if op = 0x39 then some (withWorld ctx.codecopyHandler w)
  else if op = 0x50 then some (withWorld ctx.popHandler w)
  else if op = 0x51 then some (withWorld ctx.mloadHandler w)
  else if op = 0x52 then some (withWorld ctx.mstoreHandler w)
  else if op = 0x53 then some (withWorld ctx.mstore8Handler w)
  else if op = 0x54 then some (ctx.sloadHandler w)
  else if op = 0x55 then some (ctx.sstoreHandler w)
  else if op = 0x56 then some (withWorld ctx.jumpHandler w)
  else if op = 0x57 then some (withWorld ctx.jumpiHandler w)
  else if op = 0x58 then
    some (withWorld (ctx.pushOfHandler 2 (fun c => c.pc)) w)
  else if op = 0x59 then
    some (withWorld (ctx.pushOfHandler 2 (fun c => c.memory.length)) w)
  else if op = 0x5a then
    some (withWorld (ctx.pushOfHandler 2 (fun c => c.gasLeft)) w)
  else if op = 0x5b then some (withWorld ctx.jumpdestHandler w)
  else if op = 0x5f then
    some (withWorld (ctx.pushOfHandler 2 (fun _ => 0)) w)
  else if 0x60 ≤ op ∧ op ≤ 0x7f then some (withWorld ctx.pushNHandler w)
  else if 0x80 ≤ op ∧ op ≤ 0x8f then
    some (withWorld (ctx.dupHandler (op - 0x80)) w)
  else if 0x90 ≤ op ∧ op ≤ 0x9f then
    some (withWorld (ctx.swapHandler (op - 0x90)) w)
  else if op = 0xf3 then some (withWorld ctx.returnHandler w)
  else if op = 0xfd then some (withWorld ctx.revertHandler w)
  else none

/-! ## VM main loop (`Evm.execute` in `src/evm/core.ts`) -/

/-- Execution result, from `src/evm/types.ts`. -/
structure ExecutionResult where
  success : Bool
  gasUsed : Nat
  returnData : Bytes
  deriving Repr, DecidableEq

/-- One `while` iteration cannot be bounded statically (jumps can loop),
so the loop takes fuel; `none` means the fuel ran out, never a result the
source could produce.  The loop mirrors `Evm.execute`: stop when halted or
the pc runs off the code; unknown opcodes revert; a thrown handler error
is caught and reported as failure with the gas consumed so far; the pc is
advanced unless the opcode was `JUMP`, `JUMPI`, a `PUSHn` (`0x60`–`0x7f`),
or the frame just stopped. -/
def execLoop (initialGas : Nat) :
    Nat → ExecutionContext → WorldState → Option (ExecutionResult × WorldState)
  | 0, _, _ => none
  | fuel + 1, ctx, w =>
    if ctx.stopped ∨ ctx.code.length ≤ ctx.pc then
      some ({ success := !ctx.reverted, gasUsed := initialGas - ctx.gasLeft,
              returnData := ctx.returnData }, w)
    else
      let op := ctx.getCurrentOpcode
      match runOpcode op ctx w with
      | none =>
        let c2 := ctx.revertCtx []
        some ({ success := !c2.reverted, gasUsed := initialGas - c2.gasLeft,
                returnData := c2.returnData }, w)
      | some (.error (_, cE)) =>
        some ({ success := false, gasUsed := initialGas - cE.gasLeft,
                returnData := [] }, w)
      | some (.ok (c2, w2)) =>
        let isPush := 0x60 ≤ op ∧ op ≤ 0x7f
        let c3 :=
          if op ≠ 0x56 ∧ op ≠ 0x57 ∧ ¬ isPush ∧ c2.stopped = false then
            { c2 with pc := c2.pc + 1 }
          else c2
        execLoop initialGas fuel c3 w2

/-- Source `Evm.execute`: build the context and run the loop. -/
def evmExecute (fuel : Nat) (code : Bytes) (w : WorldState) (env : Env)
    (gasLimit : Nat) (calldata : Bytes) : Option (ExecutionResult × WorldState) :=
  execLoop gasLimit fuel (ExecutionContext.init code env gasLimit calldata) w

/-! ## Transaction executor (`src/evm/transaction.ts`)

`executeTransaction` validates, snapshots, debits gas, transfers value,
increments the nonce, runs the VM (call or creation), refunds unused gas,
and commits on success / reverts on failure; any thrown error is caught
and also reverts.  The contract-address derivation hashes with keccak-256;
the executor is parameterised by that derivation function
(`generateContractAddress` in `src/evm/utils.ts`) since no claim depends
on the hash's value. -/

/-- Transaction record from `src/evm/types.ts`; `to = none` denotes a
contract creation. -/
structure Transaction where
  sender : Addr
  toAddr : Option Addr
  value : Nat
  gasLimit : Nat
  gasPrice : Nat
  nonce : Nat
  data : Bytes
  deriving Repr, DecidableEq

/-- Block context handed to `executeTransaction`. -/
structure BlockCtx where
  number : Nat
  timestamp : Nat
  coinbase : Addr
  gasLimit : Nat
  deriving Repr, DecidableEq

/-- Validation errors thrown by `validateTransaction`. -/
inductive TxErr where
  | senderMissing
  | invalidNonce
  | insufficientBalance
  | gasLimitNotPositive
  | contractCollision
  | worldErr (e : WsErr)
  deriving Repr, DecidableEq

/-- Source `validateTransaction`: sender exists, exact nonce, balance
covers value plus the full gas cost, positive gas limit. -/
def validateTransaction (tx : Transaction) (w : WorldState) : Except TxErr Unit :=
  match w.getAccount tx.sender with
  | none => .error .senderMissing
  | some sender =>
    if tx.nonce ≠ sender.nonce then .error .invalidNonce
    else
      let cost := tx.value + tx.gasLimit * tx.gasPrice
      if sender.balance < cost then .error .insufficientBalance
      else if tx.gasLimit = 0 then .error .gasLimitNotPositive
      else .ok ()

/-- Source `executeCreate`: derive the address from the sender and its
nonce before the increment, refuse collisions, materialise the account
with nonce 1, transfer the value, run the init code, and install the
returned runtime code on success (on failure only the new account's
balance is drained; the snapshot revert in the caller undoes the rest). -/
def executeCreate (genAddr : Addr → Nat → Addr) (fuel : Nat)
    (tx : Transaction) (w : WorldState) (env : Env) :
    Except TxErr (Option (ExecutionResult × WorldState)) :=
  match w.getAccount tx.sender with
  | none => .error .senderMissing
  | some sender =>
    let contractAddress := genAddr tx.sender (sender.nonce - 1)
    if w.accountExists contractAddress then .error .contractCollision
    else
      let w := w.putAccount
        { address := contractAddress, nonce := 1, balance := 0, code := [],
          storage := [] }
      let w := if tx.value ≠ 0 then w.addBalance contractAddress tx.value else w
      let env := { env with address := contractAddress }
      match evmExecute fuel tx.data w env tx.gasLimit [] with
      | none => .ok none
      | some (result, w1) =>
        if result.success then
          .ok (some (result, w1.setCode contractAddress result.returnData))
        else
          match w1.subBalance contractAddress (w1.getBalance contractAddress) with
          | .error e => .error (.worldErr e)
          | .ok w2 => .ok (some (result, w2))

/-- Source `executeCall`: empty code succeeds with zero gas, otherwise run
the contract's code with the transaction data as calldata. -/
def executeCall (fuel : Nat) (tx : Transaction) (w : WorldState) (env : Env)
    (toAddr : Addr) : Option (ExecutionResult × WorldState) :=
  let code := w.getCode toAddr
  if code.length = 0 then
    some ({ success := true, gasUsed := 0, returnData := [] }, w)
  else evmExecute fuel code w env tx.gasLimit tx.data

/-- Catch block of `executeTransaction`: revert to the snapshot and report
failure with all gas consumed (`gasUsed: tx.gasLimit`).  The revert cannot
fail there (the snapshot was just taken); its error maps to `none`. -/
def txCatch (tx : Transaction) (snapshotId : Nat) (wErr : WorldState) :
    Option (ExecutionResult × WorldState) :=
  match wErr.revert snapshotId with
  | .error _ => none
  | .ok wR =>
    some ({ success := false, gasUsed := tx.gasLimit, returnData := [] }, wR)

/-- Source `executeTransaction`.  The `Option` is fuel exhaustion; the
result carries the execution outcome and the final world.  Every thrown
error lands in the catch-branch (`txCatch`) applied to the world as
mutated up to the throw. -/
def executeTransaction (genAddr : Addr → Nat → Addr) (fuel : Nat)
    (tx : Transaction) (w : WorldState) (block : BlockCtx) (chainId : Nat) :
    Option (ExecutionResult × WorldState) :=
  let snapshotId := (w.snapshot).1
  let w0 := (w.snapshot).2
  match validateTransaction tx w0 with
  | .error _ => txCatch tx snapshotId w0
  | .ok () =>
    let gasCost := tx.gasLimit * tx.gasPrice
    match w0.subBalance tx.sender gasCost with
    | .error _ => txCatch tx snapshotId w0
    | .ok w1 =>
      let transferred : Except WsErr WorldState :=
        match tx.toAddr with
        | some toAddr =>
          if tx.value ≠ 0 then
            match w1.subBalance tx.sender tx.value with
            | .error e => .error e
            | .ok wa => .ok (wa.addBalance toAddr tx.value)
          else .ok w1
        | none => .ok w1
      match transferred with
      | .error _ => txCatch tx snapshotId w1
      | .ok w2 =>
        let w3 := w2.incrementNonce tx.sender
        let env : Env :=
          { address := tx.toAddr.getD (List.replicate 20 0), caller := tx.sender,
            origin := tx.sender, value := tx.value, gasPrice := tx.gasPrice,
            blockNumber := block.number, blockTimestamp := block.timestamp,
            coinbase := block.coinbase, blockGasLimit := block.gasLimit,
            chainId := chainId }
        let executed : Except TxErr (Option (ExecutionResult × WorldState)) :=
          match tx.toAddr with
          | none => executeCreate genAddr fuel tx w3 env
          | some toAddr => .ok (executeCall fuel tx w3 env toAddr)
        match executed with
        | .error _ => txCatch tx snapshotId w3
        | .ok none => none
        | .ok (some (result, w4)) =>
          let gasRefund := (tx.gasLimit - result.gasUsed) * tx.gasPrice
          let w5 := w4.addBalance tx.sender gasRefund
          if result.success then some (result, w5.commitWith snapshotId)
          else
            match w5.revert snapshotId with
            | .error _ => none
            | .ok w6 => some (result, w6)

/-- Snapshot bookkeeping of a world, bundled: the snapshot map, the
counter and the current-snapshot marker.  No opcode handler and no account
or storage mutation touches it. -/
def snapBook (w : WorldState) : List (Nat × Snapshot) × Nat × Option Nat :=
  (w.snapshots, w.nextSnapshotId, w.currentSnapshotId)

/-- Bytecode whose only `0x5b` byte sits inside `PUSH1` immediate data:
`PUSH1 0x04; JUMP; PUSH1 0x5b; STOP`; the jump target 4 is the immediate
byte of the `PUSH1` at offset 3. -/
def pushDataJumpCode : Bytes := [0x60, 0x04, 0x56, 0x60, 0x5b, 0x00]

/-- The same program with the byte at the jump target not equal to
`0x5b`. -/
def pushDataJumpCodeAlt : Bytes := [0x60, 0x04, 0x56, 0x60, 0x5c, 0x00]

/-- Offsets at which instructions of a code buffer start (`PUSH`
immediates are skipped): the instruction stream in the sense of the
specification, used to state that an offset lies inside `PUSH` data. -/
def instructionOffsets (code : Bytes) : Nat → Nat → List Nat
  | 0, _ => []
  | fuel + 1, pos =>
    if code.length ≤ pos then []
    else
      let op := code.getD pos 0
      let step := if 0x60 ≤ op ∧ op ≤ 0x7f then op - 0x60 + 2 else 1
      pos :: instructionOffsets code fuel (pos + step)

/-- Initial world for the failed-call scenario: sender `[1]` holds
balance 100 at nonce 0, and the contract at `[2]` has code `[0xfe]` — an
opcode with no registered handler, so calling it reverts the frame. -/
def c1World : WorldState :=
  { accounts :=
      [([1], { address := [1], nonce := 0, balance := 100, code := [],
               storage := [] }),
       ([2], { address := [2], nonce := 0, balance := 0, code := [0xfe],
               storage := [] })],
    storages := [], snapshots := [], nextSnapshotId := 1,
    currentSnapshotId := none }

/-- Transaction from `[1]` calling the reverting contract `[2]`. -/
def c1Tx : Transaction :=
  { sender := [1], toAddr := some [2], value := 0, gasLimit := 10,
    gasPrice := 1, nonce := 0, data := [] }

/-- Block context for the failed-call scenario. -/
def c1Block : BlockCtx :=
  { number := 1, timestamp := 0, coinbase := [], gasLimit := 1000000 }

/-- Result `executeTransaction` returns on the failed-call scenario. -/
def c1Res : ExecutionResult := { success := false, gasUsed := 0, returnData := [] }

/-- Final world of the failed-call scenario: every observable component is
restored to `c1World`; only the snapshot bookkeeping differs. -/
def c1Final : WorldState :=
  { accounts := c1World.accounts,
    storages := [],
    snapshots := [(1, { accounts := c1World.accounts, storages := [],
                        nextSnapshotId := 2 })],
    nextSnapshotId := 2,
    currentSnapshotId := some 1 }

/-! ## Transaction pool (`src/pool/txPool.ts`)

The source keys `pending`/`queued` by the hex string of the transaction's
keccak-256 hash and `accountTransactions` by the sender's hex string; the
model keys them by a `Nat` hash (pool operations take the hash function as
a parameter, since no claim depends on its value) and by the sender bytes.
The sender-missing, negative-nonce and negative-value admission checks
cannot fire for a well-typed `Transaction` (a `Uint8Array` is always
truthy and the numeric fields are unsigned); the gas checks are guarded by
JS truthiness, so zero values skip them, which the model reproduces. -/

/-- Pool entry (`PoolTransaction` in the source). -/
structure PoolTransaction where
  transaction : Transaction
  hash : Nat
  addedTime : Nat
  gasPrice : Nat
  gasLimit : Nat
  sender : Addr
  nonce : Nat
  priority : Nat
  deriving Repr, DecidableEq

/-- Pool configuration (`TxPoolConfig`). -/
structure TxPoolConfig where
  maxPoolSize : Nat
  maxAccountTransactions : Nat
  minGasPrice : Nat
  blockGasLimit : Nat
  transactionTimeout : Nat
  deriving Repr, DecidableEq

/-- Pool state (`TransactionPool`). -/
structure TransactionPool where
  config : TxPoolConfig
  pending : List (Nat × PoolTransaction)
  queued : List (Nat × PoolTransaction)
  accountTransactions : List (Addr × List PoolTransaction)
  nextPriority : Nat
  deriving Repr, DecidableEq

namespace TransactionPool

/-- Source `validateTransaction` of the pool: gas-price floor and
gas-limit cap, both skipped for zero values by JS truthiness; the
remaining checks cannot fire for well-typed transactions. -/
def validatePoolTransaction (config : TxPoolConfig) (transaction : Transaction) :
    Bool :=
  if transaction.gasPrice ≠ 0 ∧ transaction.gasPrice < config.minGasPrice then
    false
  else if transaction.gasLimit ≠ 0 ∧ config.blockGasLimit < transaction.gasLimit then
    false
  else true

/-- Source `getCurrentNonce`: zero for an unknown or empty account, else
the highest nonce among the sender's pool entries plus one. -/
def getCurrentNonce (pool : TransactionPool) (address : Addr) : Nat :=
  let accountTxs := (getA pool.accountTransactions address).getD []
  if accountTxs.length = 0 then 0
  else (accountTxs.foldl (fun m t => if m < t.nonce then t.nonce else m) 0) + 1

/-- Insertion into a list sorted by the `enforcePoolSizeLimit` comparator:
gas price ascending, ties by arrival time ascending.  (For entries equal
in both keys the JS comparator is inconsistent — it never returns 0 — and
the engine's result is unspecified; the model keeps them stable.) -/
def insertByFee (t : PoolTransaction) : List PoolTransaction → List PoolTransaction
  | [] => [t]
  | u :: rest =>
    if t.gasPrice < u.gasPrice ∨ (t.gasPrice = u.gasPrice ∧ t.addedTime ≤ u.addedTime)
    then t :: u :: rest
    else u :: insertByFee t rest

/-- Sort by gas price ascending, oldest first on ties. -/
def sortByFeeAsc (l : List PoolTransaction) : List PoolTransaction :=
  l.foldr insertByFee []

/-- Insertion into a list sorted by the `getTransactionsForBlock`
comparator: gas price descending, ties by priority ascending. -/
def insertByPrice (t : PoolTransaction) : List PoolTransaction → List PoolTransaction
  | [] => [t]
  | u :: rest =>
    if u.gasPrice < t.gasPrice ∨ (t.gasPrice = u.gasPrice ∧ t.priority ≤ u.priority)
    then t :: u :: rest
    else u :: insertByPrice t rest

/-- Sort by gas price descending, earliest priority first on ties. -/
def sortByPriceDesc (l : List PoolTransaction) : List PoolTransaction :=
  l.foldr insertByPrice []

/-- Remove the first entry with the given hash (`findIndex` + `splice`). -/
def removeFirstByHash : List PoolTransaction → Nat → List PoolTransaction
  | [], _ => []
  | t :: rest, hash =>
    if t.hash = hash then rest else t :: removeFirstByHash rest hash

/-- Drop one hash from a sender's account-transaction list, deleting the
account entry when it becomes empty. -/
def removeAccountTx (ats : List (Addr × List PoolTransaction)) (sender : Addr)
    (hash : Nat) : List (Addr × List PoolTransaction) :=
  let accountTxs := (getA ats sender).getD []
  let accountTxs := removeFirstByHash accountTxs hash
  if accountTxs.length = 0 then eraseA ats sender else setA ats sender accountTxs

/-- Source `enforcePoolSizeLimit`: when over capacity, evict the
lowest-gas-price (oldest first) entries from both buckets. -/
def enforcePoolSizeLimit (pool : TransactionPool) : TransactionPool :=
  let totalSize := pool.pending.length + pool.queued.length
  if totalSize ≤ pool.config.maxPoolSize then pool
  else
    let allTransactions := pool.pending.map Prod.snd ++ pool.queued.map Prod.snd
    let sorted := sortByFeeAsc allTransactions
    let toRemove := totalSize - pool.config.maxPoolSize
    (sorted.take toRemove).foldl
      (fun p t =>
        { p with
          pending := eraseA p.pending t.hash,
          queued := eraseA p.queued t.hash,
          accountTransactions := removeAccountTx p.accountTransactions t.sender t.hash })
      pool

/-- Source `addTransaction`.  Returns the new pool and the `added` flag.
The priority counter is consumed as soon as the entry record is built, so
it advances even when the transaction is later rejected as stale or by the
per-account cap — exactly as `this.nextPriority++` does. -/
def addTransaction (pool : TransactionPool) (hashf : Transaction → Nat)
    (now : Nat) (transaction : Transaction) : TransactionPool × Bool :=
  if validatePoolTransaction pool.config transaction = false then (pool, false)
  else
    let hash := hashf transaction
    let sender := transaction.sender
    if (getA pool.pending hash).isSome ∨ (getA pool.queued hash).isSome then
      (pool, false)
    else
      let poolTx : PoolTransaction :=
        { transaction := transaction, hash := hash, addedTime := now,
          gasPrice := transaction.gasPrice, gasLimit := transaction.gasLimit,
          sender := sender, nonce := transaction.nonce,
          priority := pool.nextPriority }
      let p1 := { pool with nextPriority := pool.nextPriority + 1 }
      let accountTxs := (getA p1.accountTransactions sender).getD []
      if p1.config.maxAccountTransactions ≤ accountTxs.length then (p1, false)
      else
        let currentNonce := getCurrentNonce p1 sender
        if transaction.nonce = currentNonce then
          (enforcePoolSizeLimit
            { p1 with
              pending := setA p1.pending hash poolTx,
              accountTransactions :=
                setA p1.accountTransactions sender (accountTxs ++ [poolTx]) },
            true)
        else if currentNonce < transaction.nonce then
          (enforcePoolSizeLimit
            { p1 with
              queued := setA p1.queued hash poolTx,
              accountTransactions :=
                setA p1.accountTransactions sender (accountTxs ++ [poolTx]) },
            true)
        else (p1, false)

/-- Source `promoteQueuedTransactions`: collect the sender's queued
entries whose nonce equals the pool's expected next nonce, then move each
to pending. -/
def promoteQueuedTransactions (pool : TransactionPool) (sender : Addr) :
    TransactionPool :=
  let accountTxs := (getA pool.accountTransactions sender).getD []
  let currentNonce := getCurrentNonce pool sender
  let toPromote := (accountTxs.filter
    (fun t => (getA pool.queued t.hash).isSome ∧ t.nonce = currentNonce)).map
    (fun t => t.hash)
  toPromote.foldl
    (fun p hash =>
      match getA p.queued hash with
      | none => p
      | some t =>
        { p with queued := eraseA p.queued hash,
                 pending := setA p.pending hash t })
    pool

/-- One iteration of `removeTransactions`: drop the entry from both
buckets and from its sender's account list, then try promotions for that
sender. -/
def removeOnePoolTx (pool : TransactionPool) (hash : Nat) : TransactionPool :=
  match (getA pool.pending hash).orElse (fun _ => getA pool.queued hash) with
  | none => pool
  | some t =>
    promoteQueuedTransactions
      { pool with
        pending := eraseA pool.pending hash,
        queued := eraseA pool.queued hash,
        accountTransactions := removeAccountTx pool.accountTransactions t.sender hash }
      t.sender

/-- Source `removeTransactions`. -/
def removeTransactions (pool : TransactionPool) (hashes : List Nat) :
    TransactionPool :=
  hashes.foldl removeOnePoolTx pool

/-- Selection loop of `getTransactionsForBlock`: take entries until the
next would exceed the gas limit, then stop. -/
def selectForBlock (gasLimit : Nat) : List PoolTransaction → Nat → List PoolTransaction
  | [], _ => []
  | t :: rest, totalGas =>
    if gasLimit < totalGas + t.gasLimit then []
    else t :: selectForBlock gasLimit rest (totalGas + t.gasLimit)

/-- Source `getTransactionsForBlock`: pending entries sorted by gas price
descending (priority ascending on ties), clipped to the gas limit. -/
def getTransactionsForBlock (pool : TransactionPool) (gasLimit : Nat) :
    List PoolTransaction :=
  selectForBlock gasLimit (sortByPriceDesc (pool.pending.map Prod.snd)) 0

end TransactionPool

/-- Pool configuration for the concrete admission scenario. -/
def c9Config : TxPoolConfig :=
  { maxPoolSize := 10, maxAccountTransactions := 5, minGasPrice := 1,
    blockGasLimit := 1000, transactionTimeout := 60 }

/-- Empty pool with the concrete configuration. -/
def c9Pool : TransactionPool :=
  { config := c9Config, pending := [], queued := [],
    accountTransactions := [], nextPriority := 0 }

/-- Transaction whose nonce matches the empty pool's expected next nonce
for its sender. -/
def c9Tx : Transaction :=
  { sender := [7], toAddr := some [8], value := 0, gasLimit := 100,
    gasPrice := 2, nonce := 0, data := [] }

/-! ## RLP and block-header serialization (`src/blockchain/utils.ts`)

`RLP.encodeList` concatenates the item byte arrays without encoding each
item, and `decodeRLPList` always parses the first byte as a short-form
list prefix with fixed field sizes; both are embedded as written. -/

/-- Loop of `RLP.lengthToBytes`: minimal big-endian bytes of a length
(empty for zero).  The first argument is fuel; `lengthToBytes` supplies
enough for any input. -/
def lengthToBytesAux : Nat → Nat → List Nat
  | 0, _ => []
  | fuel + 1, n =>
    if n = 0 then [] else lengthToBytesAux fuel (n / 256) ++ [n % 256]

/-- Source `RLP.lengthToBytes`. -/
def lengthToBytes (n : Nat) : List Nat :=
  lengthToBytesAux n n

/-- Source `RLP.encodeBytes`: single small byte unchanged, short form
below 56 bytes, long form with a length-of-length prefix otherwise. -/
def encodeBytes (bytes : List Nat) : List Nat :=
  if bytes.length = 1 ∧ bytes.getD 0 0 < 0x80 then bytes
  else if bytes.length < 56 then (0x80 + bytes.length) :: bytes
  else
    let lengthBytes := lengthToBytes bytes.length
    (0xb7 + lengthBytes.length) :: (lengthBytes ++ bytes)

/-- Source `RLP.encodeList`: concatenates the items (without encoding
them) and prepends the list prefix. -/
def encodeList (items : List (List Nat)) : List Nat :=
  let concatenated := items.foldl (fun acc arr => acc ++ arr) []
  if concatenated.length < 56 then (0xc0 + concatenated.length) :: concatenated
  else
    let lengthBytes := lengthToBytes concatenated.length
    (0xf7 + lengthBytes.length) :: (lengthBytes ++ concatenated)

/-- Block header (`BlockHeader` in `src/blockchain/types.ts`). -/
structure BlockHeader where
  parentHash : List Nat
  number : Nat
  timestamp : Nat
  stateRoot : List Nat
  transactionsRoot : List Nat
  receiptsRoot : List Nat
  validator : List Nat
  signature : List Nat
  gasLimit : Nat
  gasUsed : Nat
  extraData : List Nat
  deriving Repr, DecidableEq

/-- Source `serializeBlockHeader`: the eleven fields, numbers as 32-byte
big-endian words, passed to `RLP.encode` as a list. -/
def serializeBlockHeader (header : BlockHeader) : List Nat :=
  encodeList
    [header.parentHash,
     bigintToBytes header.number 32,
     bigintToBytes header.timestamp 32,
     header.stateRoot,
     header.transactionsRoot,
     header.receiptsRoot,
     header.validator,
     header.signature,
     bigintToBytes header.gasLimit 32,
     bigintToBytes header.gasUsed 32,
     header.extraData]

/-- Source `decodeRLPList`: the first byte is always treated as a
short-form list prefix (`data[0] - 0xc0` is the payload length), the
payload is cut at fixed field sizes, and the tenth field takes the rest;
a non-list prefix throws. -/
def decodeRLPList (data : List Nat) : Except String (List (List Nat)) :=
  if 0xc0 ≤ data.getD 0 0 then
    let length := data.getD 0 0 - 0xc0
    let listData := (data.drop 1).take length
    let fieldSizes : List Nat := [32, 32, 32, 32, 32, 32, 20, 65, 32, 32]
    let step := fun (acc : List (List Nat) × Nat) (size : Nat) =>
      (acc.1 ++ [(listData.drop acc.2).take size], acc.2 + size)
    let fo := (fieldSizes.take (fieldSizes.length - 1)).foldl step ([], 0)
    .ok (fo.1 ++ [listData.drop fo.2])
  else .error "Expected RLP list"

/-- Source `deserializeBlockHeader`: decode the field list, then read the
fields by index; `bytesToBigint` of an empty array throws
(`BigInt('0x')`), modelled by the emptiness guard.  An index past the end
is `undefined` in the source; the model reads an empty array there. -/
def deserializeBlockHeader (data : List Nat) : Except String BlockHeader :=
  match decodeRLPList data with
  | .error e => .error e
  | .ok fields =>
    if fields.getD 1 [] = [] ∨ fields.getD 2 [] = [] ∨
       fields.getD 8 [] = [] ∨ fields.getD 9 [] = [] then
      .error "Cannot convert 0x to a BigInt"
    else
      .ok { parentHash := fields.getD 0 [],
            number := bytesToBigint (fields.getD 1 []),
            timestamp := bytesToBigint (fields.getD 2 []),
            stateRoot := fields.getD 3 [],
            transactionsRoot := fields.getD 4 [],
            receiptsRoot := fields.getD 5 [],
            validator := fields.getD 6 [],
            signature := fields.getD 7 [],
            gasLimit := bytesToBigint (fields.getD 8 []),
            gasUsed := bytesToBigint (fields.getD 9 []),
            extraData := fields.getD 10 [] }

/-- All-zero block header: 32-byte zero hashes, 20-byte zero validator,
65-byte zero signature, zero numbers, empty extra data. -/
def zeroHeader : BlockHeader :=
  { parentHash := List.replicate 32 0, number := 0, timestamp := 0,
    stateRoot := List.replicate 32 0,
    transactionsRoot := List.replicate 32 0,
    receiptsRoot := List.replicate 32 0,
    validator := List.replicate 20 0,
    signature := List.replicate 65 0,
    gasLimit := 0, gasUsed := 0, extraData := [] }

/-! ## Fork choice (`src/consensus/poa.ts`) and reorg handling
(`BlockchainManager.handleReorg`) -/

/-- Fork-choice action. -/
inductive ReorgAction where
  | extend
  | reorg
  | ignore
  deriving Repr, DecidableEq

/-- Manager-level block: header number and transaction list, the parts
`handleReorg` observes. -/
structure ChainBlock where
  number : Nat
  transactions : List Transaction
  deriving Repr, DecidableEq

/-- Fork-choice result (`ForkChoiceResult`): the action plus the optional
new chain and common ancestor. -/
structure ForkChoiceResult where
  action : ReorgAction
  newChain : Option (List ChainBlock)
  commonAncestor : Option ChainBlock
  deriving Repr, DecidableEq

/-- Source `PoAConsensus.shouldReorg`: compares only the header numbers —
ignore when not strictly higher than the tip, reorg when more than one
ahead, extend otherwise; `newChain` and `commonAncestor` are never
populated. -/
def shouldReorg (newBlock currentTip : BlockHeader) : ForkChoiceResult :=
  if newBlock.number ≤ currentTip.number then
    { action := .ignore, newChain := none, commonAncestor := none }
  else if currentTip.number + 1 < newBlock.number then
    { action := .reorg, newChain := none, commonAncestor := none }
  else
    { action := .extend, newChain := none, commonAncestor := none }

/-- Source `BlockchainManager.handleReorg`, restricted to its effect on
the transaction pool (storage and validator bookkeeping are outside every
claim).  `displaced` is the list of blocks the walk from the current tip
back to the common ancestor visits; for each the source calls
`txPool.removeTransactions` on the block's transaction hashes (the
comment above that call reads "Add transactions back to pool"), and then
does the same for every block of the new chain.  When the fork-choice
result carries no new chain or no common ancestor it throws. -/
def handleReorg (txHash : Transaction → Nat) (fc : ForkChoiceResult)
    (displaced : List ChainBlock) (pool : TransactionPool) :
    Except String TransactionPool :=
  match fc.newChain, fc.commonAncestor with
  | some newChain, some _ =>
    let afterWalk := displaced.foldl
      (fun p b => TransactionPool.removeTransactions p (b.transactions.map txHash))
      pool
    .ok (newChain.foldl
      (fun p b => TransactionPool.removeTransactions p (b.transactions.map txHash))
      afterWalk)
  | _, _ => .error "Invalid fork choice for reorg"

/-- Hash function for the reorg scenario (every transaction hashes to 0;
the scenario has a single transaction). -/
def c4Hash : Transaction → Nat := fun _ => 0

/-- The transaction displaced by the reorg scenario. -/
def c4Tx : Transaction :=
  { sender := [9], toAddr := some [8], value := 0, gasLimit := 100,
    gasPrice := 2, nonce := 0, data := [] }

/-- Pool entry for the displaced transaction. -/
def c4Entry : PoolTransaction :=
  { transaction := c4Tx, hash := 0, addedTime := 0, gasPrice := 2,
    gasLimit := 100, sender := [9], nonce := 0, priority := 0 }

/-- Pool holding the displaced transaction in `pending`. -/
def c4Pool : TransactionPool :=
  { config := c9Config, pending := [(0, c4Entry)], queued := [],
    accountTransactions := [([9], [c4Entry])], nextPriority := 1 }

/-- The displaced block carrying the transaction. -/
def c4Block : ChainBlock :=
  { number := 1, transactions := [c4Tx] }

/-- Header one ahead of the zero tip (fork-choice `extend` scenario). -/
def c3ChildA : BlockHeader :=
  { zeroHeader with number := 1, parentHash := [0] }

/-- Another header one ahead of the zero tip, with a different parent
hash. -/
def c3ChildB : BlockHeader :=
  { zeroHeader with number := 1, parentHash := [1] }

/-- Header two ahead of the zero tip (fork-choice `reorg` scenario). -/
def c4NewHeader : BlockHeader :=
  { zeroHeader with number := 2 }

/-! ## Block production (`BlockProcessor` in `src/blockchain/utils.ts`) -/

/-- Result of the processor's internal `executeTransaction`: success flag
and gas used (the receipt adds nothing a claim observes). -/
structure BPTxResult where
  success : Bool
  gasUsed : Nat
  deriving Repr, DecidableEq

/-- Result of `simulateTransactionExecution`. -/
structure SimResult where
  success : Bool
  gasUsed : Nat
  contractAddress : Option Addr
  deriving Repr, DecidableEq

/-- Source `BlockProcessor.generateContractAddress`: sender bytes plus the
low byte of the nonce XOR-folded into a 32-byte buffer, last 20 bytes. -/
def bpGenerateContractAddress (sender : Addr) (nonce : Nat) : Addr :=
  let combined := sender ++ [nonce % 256]
  let hash := (List.range combined.length).foldl
    (fun (h : List Nat) i =>
      h.set (i % 32) (Nat.xor (h.getD (i % 32) 0) (combined.getD i 0)))
    (List.replicate 32 0)
  hash.drop 12

/-- Source `simulateTransactionExecution`: always succeeds with half the
gas limit used; contract creations also compute an address. -/
def simulateTransactionExecution (tx : Transaction) : SimResult :=
  let gasUsed := tx.gasLimit / 2
  let success := true
  match tx.toAddr with
  | some _ => { success := success, gasUsed := gasUsed, contractAddress := none }
  | none =>
    { success := success, gasUsed := gasUsed,
      contractAddress := some (bpGenerateContractAddress tx.sender tx.nonce) }

/-- Source `BlockProcessor.executeTransaction`: snapshot, nonce and
balance validation (reverting and reporting zero gas on failure), upfront
gas debit and nonce increment, simulated execution, refund of unused gas;
on simulated failure revert and re-apply the debit and increment (dead in
practice — the simulation always succeeds).  A throw escaping to the
`catch` wrapper reports zero gas and leaves the state as it was. -/
def bpExecuteTransaction (w0 : WorldState) (tx : Transaction) :
    BPTxResult × WorldState :=
  let sw := w0.snapshot
  let snapshotId := sw.1
  let w := sw.2
  let sender := tx.sender
  let balance := w.getBalance sender
  let nonce := w.getNonce sender
  let gasCost := tx.gasLimit * tx.gasPrice
  let totalCost := gasCost + tx.value
  if tx.nonce ≠ nonce then
    match w.revert snapshotId with
    | .error _ => ({ success := false, gasUsed := 0 }, w)
    | .ok w1 => ({ success := false, gasUsed := 0 }, w1)
  else if balance < totalCost then
    match w.revert snapshotId with
    | .error _ => ({ success := false, gasUsed := 0 }, w)
    | .ok w1 => ({ success := false, gasUsed := 0 }, w1)
  else
    match w.subBalance sender gasCost with
    | .error _ => ({ success := false, gasUsed := 0 }, w)
    | .ok w1 =>
      let w2 := w1.incrementNonce sender
      let er := simulateTransactionExecution tx
      let unusedGas := tx.gasLimit - er.gasUsed
      let refundAmount := unusedGas * tx.gasPrice
      let w3 := w2.addBalance sender refundAmount
      if er.success = false then
        match w3.revert snapshotId with
        | .error _ => ({ success := false, gasUsed := 0 }, w3)
        | .ok w4 =>
          match w4.subBalance sender gasCost with
          | .error _ => ({ success := false, gasUsed := 0 }, w4)
          | .ok w5 =>
            ({ success := false, gasUsed := er.gasUsed }, w5.incrementNonce sender)
      else ({ success := true, gasUsed := er.gasUsed }, w3)

/-- Execution loop of `createBlock`: stop when the next entry's gas limit
would exceed the block gas limit; otherwise execute it and accumulate the
result's gas only when it succeeded. -/
def createBlockLoop (gasLimit : Nat) :
    List PoolTransaction → Nat → WorldState →
      List BPTxResult × Nat × WorldState
  | [], totalGasUsed, w => ([], totalGasUsed, w)
  | poolTx :: rest, totalGasUsed, w =>
    if gasLimit < totalGasUsed + poolTx.gasLimit then ([], totalGasUsed, w)
    else
      let rw := bpExecuteTransaction w poolTx.transaction
      let totalGasUsed2 :=
        if rw.1.success then totalGasUsed + rw.1.gasUsed else totalGasUsed
      let rec2 := createBlockLoop gasLimit rest totalGasUsed2 rw.2
      (rw.1 :: rec2.1, rec2.2.1, rec2.2.2)

/-- Block-processor options (`ProcessorOptions.gasLimit`). -/
structure BPOptions where
  gasLimit : Nat
  deriving Repr, DecidableEq

/-- A produced block: signed header plus transaction list. -/
structure ProcessedBlock where
  header : BlockHeader
  transactions : List Transaction
  deriving Repr, DecidableEq

/-- Source `BlockProcessor.createBlock`, parameterized by the hash-derived
roots and the parent number (keccak hashes are opaque to every claim) and
by the consensus signature bytes `sigf`.  Takes the pool selection, runs
the execution loop under a snapshot, builds and signs the header, commits,
and removes the processed entries from the pool. -/
def createBlock (pool : TransactionPool) (w0 : WorldState)
    (options : BPOptions) (parentHash transactionsRoot receiptsRoot : List Nat)
    (parentNumber timestamp : Nat) (validator : Addr)
    (sigf : BlockHeader → List Nat) :
    ProcessedBlock × Nat × WorldState × TransactionPool :=
  let poolTransactions := TransactionPool.getTransactionsForBlock pool options.gasLimit
  let sw := w0.snapshot
  let snapshotId := sw.1
  let w1 := sw.2
  let lr := createBlockLoop options.gasLimit poolTransactions 0 w1
  let totalGasUsed := lr.2.1
  let w2 := lr.2.2
  let stateRoot := List.replicate 32 1
  let header : BlockHeader :=
    { parentHash := parentHash, number := parentNumber + 1,
      timestamp := timestamp, stateRoot := stateRoot,
      transactionsRoot := transactionsRoot, receiptsRoot := receiptsRoot,
      validator := validator, signature := [], gasLimit := options.gasLimit,
      gasUsed := totalGasUsed, extraData := [] }
  let signedHeader :=
    if header.number = 0 then header
    else { header with signature := sigf header }
  let block : ProcessedBlock :=
    { header := signedHeader,
      transactions := poolTransactions.map (fun t => t.transaction) }
  let w3 := w2.commitWith snapshotId
  let pool2 := TransactionPool.removeTransactions pool
    (poolTransactions.map (fun t => t.hash))
  (block, totalGasUsed, w3, pool2)

/-- Transaction with a stale nonce for the block-production scenario: the
world below holds its sender at nonce 0, the transaction claims nonce 5. -/
def c7BadTx : Transaction :=
  { sender := [3], toAddr := some [4], value := 0, gasLimit := 100,
    gasPrice := 1, nonce := 5, data := [] }

/-- World for the block-production scenario: the sender holds ample
balance at nonce 0. -/
def c7World : WorldState :=
  { accounts :=
      [([3], { address := [3], nonce := 0, balance := 100000, code := [],
               storage := [] })],
    storages := [], snapshots := [], nextSnapshotId := 1,
    currentSnapshotId := none }

/-- Pool entry for the stale-nonce transaction. -/
def c7Entry : PoolTransaction :=
  { transaction := c7BadTx, hash := 0, addedTime := 0, gasPrice := 1,
    gasLimit := 100, sender := [3], nonce := 5, priority := 0 }

/-- Pool holding only the stale-nonce transaction. -/
def c7Pool : TransactionPool :=
  { config := c9Config, pending := [(0, c7Entry)], queued := [],
    accountTransactions := [([3], [c7Entry])], nextPriority := 1 }

/-- Block-processor options for the scenario. -/
def c7Options : BPOptions := { gasLimit := 1000 }

/-- Specification-side gas sum: total gas of the successful execution
results (failed ones contribute nothing). -/
def sumSuccessGas (results : List BPTxResult) : Nat :=
  (results.map (fun r => if r.success then r.gasUsed else 0)).sum

/-- Fork-choice result with the chain data supplied by hand, to exercise
the walk itself (the consensus never produces one). -/
def c4Fork : ForkChoiceResult :=
  { action := .reorg, newChain := some [], commonAncestor := some c4Block }

/-- Environment with all fields zeroed, for concrete VM runs. -/
def emptyEnv : Env :=
  { address := [], caller := [], origin := [], value := 0, gasPrice := 0,
    blockNumber := 0, blockTimestamp := 0, coinbase := [], blockGasLimit := 0,
    chainId := 0 }

/-- Context with a given operand stack and gas budget (empty code,
memory and calldata), for stating the opcode-level theorems. -/
def stackCtx (stack : List Word) (gas : Nat) : ExecutionContext :=
  { ExecutionContext.init [] emptyEnv gas [] with stack := stack }

/-! ## Theorems -/

theorem expmodLoop_eq (m : Nat) (hm : 1 < m) :
    ∀ e b r, b < m → r < m → expmodLoop m b e r = r * b ^ e % m := by
  intro e
  induction e using Nat.strong_induction_on with
  | _ e ih =>
    intro b r hb hr
    unfold expmodLoop
    by_cases he : e = 0
    · simp [he, Nat.mod_eq_of_lt hr]
    · simp only [he, if_false]
      have hmpos : 0 < m := by omega
      have hlt : e / 2 < e := Nat.div_lt_self (Nat.pos_of_ne_zero he) (by omega)
      have hb2 : b * b % m < m := Nat.mod_lt _ hmpos
      have key : ∀ r2, r2 < m → expmodLoop m (b * b % m) (e / 2) r2 =
          r2 * b ^ (2 * (e / 2)) % m := by
        intro r2 hr2
        rw [ih _ hlt _ _ hb2 hr2]
        calc r2 * (b * b % m) ^ (e / 2) % m
            = r2 % m * ((b * b % m) ^ (e / 2) % m) % m := by
              rw [← Nat.mul_mod]
          _ = r2 % m * ((b * b) ^ (e / 2) % m) % m := by
              rw [← Nat.pow_mod]
          _ = r2 * (b * b) ^ (e / 2) % m := by rw [← Nat.mul_mod]
          _ = r2 * b ^ (2 * (e / 2)) % m := by
              rw [show b * b = b ^ 2 by ring, ← pow_mul]
      by_cases hodd : e % 2 = 1
      · have hrb : r * b % m < m := Nat.mod_lt _ hmpos
        rw [if_pos hodd, key _ hrb]
        calc r * b % m * b ^ (2 * (e / 2)) % m
            = r * b % m % m * (b ^ (2 * (e / 2)) % m) % m := by rw [← Nat.mul_mod]
          _ = r * b % m * (b ^ (2 * (e / 2)) % m) % m := by
              rw [Nat.mod_mod_of_dvd _ dvd_rfl]
          _ = r * b * b ^ (2 * (e / 2)) % m := by
              rw [← Nat.mul_mod]
          _ = r * b ^ e % m := by
              rw [mul_assoc, mul_comm b (b ^ (2 * (e / 2))), ← pow_succ,
                show 2 * (e / 2) + 1 = e by omega]
      · rw [if_neg hodd, key r hr, show 2 * (e / 2) = e by omega]

theorem expmod_eq_pow_mod (base exponent : Nat) :
    expmod base exponent (2 ^ 256) = base ^ exponent % 2 ^ 256 := by
  unfold expmod
  rw [if_neg (by norm_num)]
  rw [expmodLoop_eq (2 ^ 256) (by norm_num) exponent (base % 2 ^ 256) 1
    (Nat.mod_lt _ (by norm_num)) (by norm_num)]
  rw [one_mul, ← Nat.pow_mod]

theorem getA_setA_self {α β : Type} [DecidableEq α] (l : List (α × β)) (k : α) (v : β) :
    getA (setA l k v) k = some v := by
  induction l with
  | nil => simp [getA, setA]
  | cons hd tl ih =>
    obtain ⟨k0, v0⟩ := hd
    by_cases h : k0 = k
    · simp [getA, setA, h]
    · simp [getA, setA, h, ih]

theorem getA_filter_lt {β : Type} (l : List (Nat × β)) (bound k : Nat) (h : bound ≤ k) :
    getA (l.filter (fun p => p.1 < bound)) k = none := by
  induction l with
  | nil => simp [getA]
  | cons hd tl ih =>
    obtain ⟨k0, v0⟩ := hd
    by_cases hk : k0 < bound
    · have hne : k0 ≠ k := by omega
      simp [List.filter, hk, getA, hne, ih]
    · simp [List.filter, hk, ih]

theorem applyMutation_preserves_snapshots (w w1 : WorldState) (m : Mutation)
    (h : applyMutation w m = .ok w1) :
    w1.snapshots = w.snapshots ∧ w1.nextSnapshotId = w.nextSnapshotId ∧
      w1.currentSnapshotId = w.currentSnapshotId := by
  cases m with
  | addBalance address amount =>
    simp only [applyMutation, Except.ok.injEq] at h
    subst h
    unfold WorldState.addBalance
    split <;> simp [WorldState.putAccount]
  | subBalance address amount =>
    simp only [applyMutation] at h
    unfold WorldState.subBalance at h
    split at h
    · simp only [Except.ok.injEq] at h; subst h; exact ⟨rfl, rfl, rfl⟩
    · split at h
      · exact Except.noConfusion h
      · split at h
        · exact Except.noConfusion h
        · simp only [Except.ok.injEq] at h; subst h
          simp [WorldState.putAccount]
  | setNonce address nonce =>
    simp only [applyMutation, Except.ok.injEq] at h
    subst h; simp [WorldState.setNonce, WorldState.putAccount]
  | incrementNonce address =>
    simp only [applyMutation, Except.ok.injEq] at h
    subst h; simp [WorldState.incrementNonce, WorldState.putAccount]
  | setCode address code =>
    simp only [applyMutation, Except.ok.injEq] at h
    subst h; simp [WorldState.setCode, WorldState.putAccount]
  | setStorage address key value =>
    simp only [applyMutation, Except.ok.injEq] at h
    subst h
    unfold WorldState.setStorage
    split <;> simp
  | putAccount account =>
    simp only [applyMutation, Except.ok.injEq] at h
    subst h; simp [WorldState.putAccount]

theorem applyMutations_preserves_snapshots (ms : List Mutation) :
    ∀ (w w1 : WorldState), applyMutations w ms = .ok w1 →
    w1.snapshots = w.snapshots ∧ w1.nextSnapshotId = w.nextSnapshotId ∧
      w1.currentSnapshotId = w.currentSnapshotId := by
  induction ms with
  | nil =>
    intro w w1 h
    simp only [applyMutations, Except.ok.injEq] at h
    subst h; exact ⟨rfl, rfl, rfl⟩
  | cons m rest ih =>
    intro w w1 h
    simp only [applyMutations] at h
    cases hm : applyMutation w m with
    | error e => rw [hm] at h; exact Except.noConfusion h
    | ok wmid =>
      rw [hm] at h
      obtain ⟨h1, h2, h3⟩ := applyMutation_preserves_snapshots w wmid m hm
      obtain ⟨h4, h5, h6⟩ := ih wmid w1 h
      exact ⟨h4.trans h1, h5.trans h2, h6.trans h3⟩

/-- C2: snapshot → mutate → revert restores the observable world (accounts
and storages) byte-identically; snapshot → mutate → commit keeps every
mutation visible, i.e. the commit changes neither accounts nor storage. -/
theorem snapshot_mutate_revert_commit (w w1 : WorldState) (ms : List Mutation)
    (h : applyMutations (w.snapshot).2 ms = .ok w1) :
    (w1.revert (w.snapshot).1).map (fun w2 => (w2.accounts, w2.storages)) =
      .ok (w.accounts, w.storages) ∧
    (w1.commitWith (w.snapshot).1).accounts = w1.accounts ∧
    (w1.commitWith (w.snapshot).1).storages = w1.storages := by
  obtain ⟨hsnap, _, _⟩ := applyMutations_preserves_snapshots ms (w.snapshot).2 w1 h
  refine ⟨?_, rfl, rfl⟩
  have hlook : getA w1.snapshots (w.snapshot).1 =
      some { accounts := w.accounts, storages := w.storages,
             nextSnapshotId := w.nextSnapshotId + 1 } := by
    rw [hsnap]
    exact getA_setA_self _ _ _
  unfold WorldState.revert
  rw [hlook]
  rfl

/-- C2 witness: a concrete world, one balance mutation and one storage
mutation round-trip through snapshot/revert and snapshot/commit. -/
theorem snapshot_mutate_revert_commit_witness :
    applyMutations ((WorldState.empty).snapshot).2
        [.addBalance [1] 5, .setStorage [1] 2 3] = .ok c2Mutated ∧
    (c2Mutated.revert ((WorldState.empty).snapshot).1).map
        (fun w2 => (w2.accounts, w2.storages)) =
      .ok (WorldState.empty.accounts, WorldState.empty.storages) :=
  ⟨by rfl,
    (snapshot_mutate_revert_commit WorldState.empty c2Mutated
      [.addBalance [1] 5, .setStorage [1] 2 3] (by rfl)).1⟩

/-- C10: a targeted `commit(id)` never changes the observable accounts or
storage, and it deletes every snapshot whose id is ≥ the given id, so a
later `revert` (or lookup) of any such id fails with `SnapshotNotFound`:
inner snapshots do not survive an outer commit. -/
theorem commit_deletes_later_snapshots (w : WorldState) (id id' : Nat)
    (h : id ≤ id') :
    (w.commitWith id).accounts = w.accounts ∧
    (w.commitWith id).storages = w.storages ∧
    getA (w.commitWith id).snapshots id' = none ∧
    (w.commitWith id).revert id' = .error .snapshotNotFound := by
  have hnone : getA (w.commitWith id).snapshots id' = none :=
    getA_filter_lt w.snapshots id id' h
  refine ⟨rfl, rfl, hnone, ?_⟩
  unfold WorldState.revert
  rw [hnone]

/-- C10 witness: take a snapshot (id 1), then a second (id 2); committing
id 1 erases both, and reverting to id 2 afterwards fails. -/
theorem commit_deletes_later_snapshots_witness :
    (1 : Nat) ≤ 2 ∧
    ((((WorldState.empty).snapshot).2.snapshot).2.commitWith 1).revert 2 =
      .error .snapshotNotFound := by
  refine ⟨by decide, ?_⟩
  exact (commit_deletes_later_snapshots (((WorldState.empty).snapshot).2.snapshot).2
    1 2 (by decide)).2.2.2

set_option maxRecDepth 4000 in
theorem sub256_lt (a b : Nat) : sub256 a b < 2 ^ 256 := by
  unfold sub256
  omega

set_option maxRecDepth 4000 in
theorem sub256_eq (a b : Nat) (hb : b ≤ 2 ^ 256) :
    sub256 a b = (2 ^ 256 + a - b) % 2 ^ 256 := by
  unfold sub256
  omega

theorem sar256_cases (shift value : Nat) (hsh : 256 ≤ shift) :
    sar256 shift value = if 2 ^ 255 ≤ value then 2 ^ 256 - 1 else 0 := by
  unfold sar256
  simp [hsh]

set_option maxRecDepth 4000 in
theorem binHandler_ok (ctx : ExecutionContext) (cost : Nat)
    (f : Nat → Nat → Nat) (a b : Nat) (s : List Nat)
    (hstack : ctx.stack = a :: b :: s) (hg : cost ≤ ctx.gasLeft)
    (hlen : s.length < 1024) (hv : f a b < 2 ^ 256) :
    ctx.binHandler cost f =
      .ok { ctx with gasLeft := ctx.gasLeft - cost, stack := f a b :: s } := by
  have h1 : ¬ (ctx.gasLeft < cost) := by omega
  have h2 : ¬ (1024 ≤ s.length) := by omega
  simp [ExecutionContext.binHandler, ExecutionContext.useGas,
    ExecutionContext.pop, ExecutionContext.push, hstack, h1, h2]
  have hle : f a b ≤ 2 ^ 256 - 1 := by omega
  exact hle

/-- C6: the arithmetic opcodes of `createOpcodeHandlers`.  `ADD`, `MUL`
and `SUB` push their result modulo `2^256` (with `a` the top operand and
`b` below it); `DIV` and `MOD` push zero when the divisor (the second
operand) is zero; `SHL`/`SHR` push zero for shifts ≥ 256; `SAR` pushes
all-ones or zero for shifts ≥ 256 according to bit 255 of the value; and
`EXP` pushes `expmod base exponent 2^256`, which equals
`base ^ exponent % 2^256`. -/
theorem vm_arithmetic_semantics (a b sh : Nat) (s : List Nat) (g : Nat)
    (w : WorldState) (ha : a < 2 ^ 256) (hb : b < 2 ^ 256)
    (hsh : 256 ≤ sh) (hg : 20000 ≤ g) (hs : s.length < 1024) :
    runOpcode 0x01 (stackCtx (a :: b :: s) g) w =
      some (.ok (stackCtx ((a + b) % 2 ^ 256 :: s) (g - 3), w)) ∧
    runOpcode 0x02 (stackCtx (a :: b :: s) g) w =
      some (.ok (stackCtx (a * b % 2 ^ 256 :: s) (g - 5), w)) ∧
    runOpcode 0x03 (stackCtx (a :: b :: s) g) w =
      some (.ok (stackCtx ((2 ^ 256 + a - b) % 2 ^ 256 :: s) (g - 3), w)) ∧
    runOpcode 0x04 (stackCtx (a :: 0 :: s) g) w =
      some (.ok (stackCtx (0 :: s) (g - 5), w)) ∧
    runOpcode 0x06 (stackCtx (a :: 0 :: s) g) w =
      some (.ok (stackCtx (0 :: s) (g - 5), w)) ∧
    runOpcode 0x1b (stackCtx (sh :: a :: s) g) w =
      some (.ok (stackCtx (0 :: s) (g - 3), w)) ∧
    runOpcode 0x1c (stackCtx (sh :: a :: s) g) w =
      some (.ok (stackCtx (0 :: s) (g - 3), w)) ∧
    runOpcode 0x1d (stackCtx (sh :: a :: s) g) w =
      some (.ok (stackCtx ((if 2 ^ 255 ≤ a then 2 ^ 256 - 1 else 0) :: s) (g - 3), w)) ∧
    runOpcode 0x0a (stackCtx (a :: b :: s) g) w =
      some (.ok (stackCtx (a ^ b % 2 ^ 256 :: s) (g - 10), w)) ∧
    expmod a b (2 ^ 256) = a ^ b % 2 ^ 256 := by
  refine ⟨?_, ?_, ?_, ?_, ?_, ?_, ?_, ?_, ?_, expmod_eq_pow_mod a b⟩
  · show some (withWorld ((stackCtx (a :: b :: s) g).binHandler 3
        (fun a b => (a + b) % 2 ^ 256)) w) = _
    rw [binHandler_ok (stackCtx (a :: b :: s) g) 3 (fun a b => (a + b) % 2 ^ 256)
      a b s rfl (le_trans (by norm_num) hg) hs (Nat.mod_lt _ (by norm_num))]
    rfl
  · show some (withWorld ((stackCtx (a :: b :: s) g).binHandler 5
        (fun a b => (a * b) % 2 ^ 256)) w) = _
    rw [binHandler_ok (stackCtx (a :: b :: s) g) 5 (fun a b => (a * b) % 2 ^ 256)
      a b s rfl (le_trans (by norm_num) hg) hs (Nat.mod_lt _ (by norm_num))]
    rfl
  · show some (withWorld ((stackCtx (a :: b :: s) g).binHandler 3
        (fun a b => sub256 a b)) w) = _
    rw [binHandler_ok (stackCtx (a :: b :: s) g) 3 (fun a b => sub256 a b)
      a b s rfl (le_trans (by norm_num) hg) hs (sub256_lt a b)]
    rw [sub256_eq a b (le_of_lt hb)]
    rfl
  · show some (withWorld ((stackCtx (a :: 0 :: s) g).binHandler 5
        (fun a b => if b = 0 then 0 else a / b)) w) = _
    rw [binHandler_ok (stackCtx (a :: 0 :: s) g) 5
      (fun a b => if b = 0 then 0 else a / b) a 0 s rfl
      (le_trans (by norm_num) hg) hs (by norm_num)]
    rfl
  · show some (withWorld ((stackCtx (a :: 0 :: s) g).binHandler 5
        (fun a b => if b = 0 then 0 else a % b)) w) = _
    rw [binHandler_ok (stackCtx (a :: 0 :: s) g) 5
      (fun a b => if b = 0 then 0 else a % b) a 0 s rfl
      (le_trans (by norm_num) hg) hs (by norm_num)]
    rfl
  · show some (withWorld ((stackCtx (sh :: a :: s) g).binHandler 3
        (fun shift value => if 256 ≤ shift then 0
          else (value <<< shift) % 2 ^ 256)) w) = _
    rw [binHandler_ok (stackCtx (sh :: a :: s) g) 3
      (fun shift value => if 256 ≤ shift then 0
        else (value <<< shift) % 2 ^ 256) sh a s rfl
      (le_trans (by norm_num) hg) hs
      (by norm_num [hsh])]
    rw [if_pos hsh]
    rfl
  · show some (withWorld ((stackCtx (sh :: a :: s) g).binHandler 3
        (fun shift value => if 256 ≤ shift then 0 else value >>> shift)) w) = _
    rw [binHandler_ok (stackCtx (sh :: a :: s) g) 3
      (fun shift value => if 256 ≤ shift then 0 else value >>> shift)
      sh a s rfl (le_trans (by norm_num) hg) hs
      (by norm_num [hsh])]
    rw [if_pos hsh]
    rfl
  · show some (withWorld ((stackCtx (sh :: a :: s) g).binHandler 3
        (fun shift value => sar256 shift value)) w) = _
    rw [binHandler_ok (stackCtx (sh :: a :: s) g) 3
      (fun shift value => sar256 shift value) sh a s rfl
      (le_trans (by norm_num) hg) hs
      (by show sar256 sh a < 2 ^ 256
          rw [sar256_cases _ _ hsh]; split <;> norm_num)]
    rw [sar256_cases _ _ hsh]
    rfl
  · show some (withWorld ((stackCtx (a :: b :: s) g).binHandler 10
        (fun base exponent => expmod base exponent (2 ^ 256))) w) = _
    rw [binHandler_ok (stackCtx (a :: b :: s) g) 10
      (fun base exponent => expmod base exponent (2 ^ 256))
      a b s rfl (le_trans (by norm_num) hg) hs
      (by show expmod a b (2 ^ 256) < 2 ^ 256
          rw [expmod_eq_pow_mod]; exact Nat.mod_lt _ (by norm_num))]
    rw [expmod_eq_pow_mod]
    rfl

/-- C6 witness: `ADD` at a concrete input. -/
theorem vm_arithmetic_semantics_witness :
    runOpcode 0x01 (stackCtx [3, 2] 20000) WorldState.empty =
      some (.ok (stackCtx [(3 + 2) % 2 ^ 256] (20000 - 3), WorldState.empty)) :=
  (vm_arithmetic_semantics 3 2 300 [] 20000 WorldState.empty (by norm_num)
    (by norm_num) (by norm_num) (by norm_num) (by norm_num)).1

/-- C5 counterexample: in `pushDataJumpCode` the jump target 4 is not an
instruction offset (it is `PUSH1` immediate data) yet its byte equals
`0x5b`, and the frame runs to success — the claim says such a jump must be
treated as invalid and the frame must fail.  `ExecutionContext.jump`
checks only the byte at the destination, not the instruction stream. -/
theorem jump_into_push_data_succeeds :
    (4 ∈ instructionOffsets pushDataJumpCode 10 0 → False) ∧
    pushDataJumpCode.getD 4 0 = 0x5b ∧
    (evmExecute 10 pushDataJumpCode WorldState.empty emptyEnv 100 []).map
        (fun p => p.1.success) = some true := by
  refine ⟨by decide, by decide, by decide⟩

/-- C5 amended: a `JUMP`/`JUMPI` target is valid precisely when it is in
bounds and the byte there equals `0x5b`, regardless of whether that byte
is an opcode of the instruction stream or `PUSH` immediate data; the
program jumping into `PUSH` data runs to success, while the same program
with a different byte at the target fails with an invalid jump. -/
theorem jump_validity_is_byte_check :
    (∀ (ctx : ExecutionContext) (dest : Nat),
      ctx.jump dest = .ok { ctx with pc := dest } ↔
        dest < ctx.code.length ∧ ctx.code.getD dest 0 = 0x5b) ∧
    (evmExecute 10 pushDataJumpCode WorldState.empty emptyEnv 100 []).map
        (fun p => (p.1.success, p.1.gasUsed)) = some (true, 12) ∧
    (evmExecute 10 pushDataJumpCodeAlt WorldState.empty emptyEnv 100 []).map
        (fun p => p.1.success) = some false := by
  refine ⟨?_, by decide, by decide⟩
  intro ctx dest
  constructor
  · intro h
    unfold ExecutionContext.jump at h
    by_cases h1 : ctx.code.length ≤ dest
    · rw [if_pos h1] at h; exact Except.noConfusion h
    · rw [if_neg h1] at h
      by_cases h2 : ctx.code.getD dest 0 ≠ 0x5b
      · rw [if_pos h2] at h; exact Except.noConfusion h
      · exact ⟨by omega, by omega⟩
  · intro ⟨h1, h2⟩
    unfold ExecutionContext.jump
    rw [if_neg (by omega), if_neg (not_not_intro h2)]

theorem snapBook_putAccount (w : WorldState) (account : Account) :
    snapBook (w.putAccount account) = snapBook w := rfl

theorem snapBook_addBalance (w : WorldState) (address : Addr) (amount : Nat) :
    snapBook (w.addBalance address amount) = snapBook w := by
  unfold WorldState.addBalance
  split <;> rfl

theorem snapBook_subBalance (w w1 : WorldState) (address : Addr) (amount : Nat)
    (h : w.subBalance address amount = .ok w1) : snapBook w1 = snapBook w := by
  unfold WorldState.subBalance at h
  split at h
  · injection h with h1; subst h1; rfl
  · split at h
    · exact Except.noConfusion h
    · split at h
      · exact Except.noConfusion h
      · injection h with h1; subst h1; rfl

theorem snapBook_incrementNonce (w : WorldState) (address : Addr) :
    snapBook (w.incrementNonce address) = snapBook w := rfl

theorem snapBook_setCode (w : WorldState) (address : Addr) (code : Bytes) :
    snapBook (w.setCode address code) = snapBook w := rfl

theorem snapBook_setStorage (w : WorldState) (address : Addr) (key value : Word) :
    snapBook (w.setStorage address key value) = snapBook w := by
  unfold WorldState.setStorage
  split <;> rfl

theorem withWorld_world {r : Except (VmErr × ExecutionContext) ExecutionContext}
    {w : WorldState} {c2 : ExecutionContext} {w2 : WorldState}
    (h : withWorld r w = .ok (c2, w2)) : w2 = w := by
  cases r with
  | error e => exact Except.noConfusion h
  | ok c =>
    injection h with h1
    injection h1 with hf hs
    exact hs.symm

theorem sloadHandler_world (ctx : ExecutionContext) (w : WorldState)
    (c2 : ExecutionContext) (w2 : WorldState)
    (h : ctx.sloadHandler w = .ok (c2, w2)) : w2 = w := by
  unfold ExecutionContext.sloadHandler at h
  split at h
  · exact Except.noConfusion h
  · split at h
    · exact Except.noConfusion h
    · split at h
      · exact Except.noConfusion h
      · injection h with h1
        injection h1 with hf hs
        exact hs.symm

theorem sstoreHandler_book (ctx : ExecutionContext) (w : WorldState)
    (c2 : ExecutionContext) (w2 : WorldState)
    (h : ctx.sstoreHandler w = .ok (c2, w2)) : snapBook w2 = snapBook w := by
  unfold ExecutionContext.sstoreHandler at h
  split at h
  · exact Except.noConfusion h
  · split at h
    · exact Except.noConfusion h
    · split at h
      · exact Except.noConfusion h
      · injection h with h1
        injection h1 with hf hs
        rw [← hs]
        exact snapBook_setStorage _ _ _ _

set_option maxHeartbeats 5000000 in
theorem runOpcode_book (op : Nat) (ctx : ExecutionContext) (w : WorldState)
    (c2 : ExecutionContext) (w2 : WorldState)
    (h : runOpcode op ctx w = some (.ok (c2, w2))) :
    snapBook w2 = snapBook w := by
  unfold runOpcode at h
  by_cases hc0 : op = 0x00
  · rw [if_pos hc0] at h
    rw [withWorld_world (Option.some.inj h)]
  rw [if_neg hc0] at h
  by_cases hc1 : op = 0x01
  · rw [if_pos hc1] at h
    rw [withWorld_world (Option.some.inj h)]
  rw [if_neg hc1] at h
  by_cases hc2 : op = 0x02
  · rw [if_pos hc2] at h
    rw [withWorld_world (Option.some.inj h)]
  rw [if_neg hc2] at h
  by_cases hc3 : op = 0x03
  · rw [if_pos hc3] at h
    rw [withWorld_world (Option.some.inj h)]
  rw [if_neg hc3] at h
  by_cases hc4 : op = 0x04
  · rw [if_pos hc4] at h
    rw [withWorld_world (Option.some.inj h)]
  rw [if_neg hc4] at h
  by_cases hc5 : op = 0x06
  · rw [if_pos hc5] at h
    rw [withWorld_world (Option.some.inj h)]
  rw [if_neg hc5] at h
  by_cases hc6 : op = 0x0a
  · rw [if_pos hc6] at h
    rw [withWorld_world (Option.some.inj h)]
  rw [if_neg hc6] at h
  by_cases hc7 : op = 0x10
  · rw [if_pos hc7] at h
    rw [withWorld_world (Option.some.inj h)]
  rw [if_neg hc7] at h
  by_cases hc8 : op = 0x11
  · rw [if_pos hc8] at h
    rw [withWorld_world (Option.some.inj h)]
  rw [if_neg hc8] at h
  by_cases hc9 : op = 0x14
  · rw [if_pos hc9] at h
    rw [withWorld_world (Option.some.inj h)]
  rw [if_neg hc9] at h
  by_cases hc10 : op = 0x15
  · rw [if_pos hc10] at h
    rw [withWorld_world (Option.some.inj h)]
  rw [if_neg hc10] at h
  by_cases hc11 : op = 0x16
  · rw [if_pos hc11] at h
    rw [withWorld_world (Option.some.inj h)]
  rw [if_neg hc11] at h
  by_cases hc12 : op = 0x17
  · rw [if_pos hc12] at h
    rw [withWorld_world (Option.some.inj h)]
  rw [if_neg hc12] at h
  by_cases hc13 : op = 0x18
  · rw [if_pos hc13] at h
    rw [withWorld_world (Option.some.inj h)]
  rw [if_neg hc13] at h
  by_cases hc14 : op = 0x19
  · rw [if_pos hc14] at h
    rw [withWorld_world (Option.some.inj h)]
  rw [if_neg hc14] at h
  by_cases hc15 : op = 0x1b
  · rw [if_pos hc15] at h
    rw [withWorld_world (Option.some.inj h)]
  rw [if_neg hc15] at h
  by_cases hc16 : op = 0x1c
  · rw [if_pos hc16] at h
    rw [withWorld_world (Option.some.inj h)]
  rw [if_neg hc16] at h
  by_cases hc17 : op = 0x1d
  · rw [if_pos hc17] at h
    rw [withWorld_world (Option.some.inj h)]
  rw [if_neg hc17] at h
  by_cases hc18 : op = 0x30
  · rw [if_pos hc18] at h
    rw [withWorld_world (Option.some.inj h)]
  rw [if_neg hc18] at h
  by_cases hc19 : op = 0x33
  · rw [if_pos hc19] at h
    rw [withWorld_world (Option.some.inj h)]
  rw [if_neg hc19] at h
  by_cases hc20 : op = 0x34
  · rw [if_pos hc20] at h
    rw [withWorld_world (Option.some.inj h)]
  rw [if_neg hc20] at h
  by_cases hc21 : op = 0x35
  · rw [if_pos hc21] at h
    rw [withWorld_world (Option.some.inj h)]
  rw [if_neg hc21] at h
  by_cases hc22 : op = 0x36
  · rw [if_pos hc22] at h
    rw [withWorld_world (Option.some.inj h)]
  rw [if_neg hc22] at h
  by_cases hc23 : op = 0x37
  · rw [if_pos hc23] at h
    rw [withWorld_world (Option.some.inj h)]
  rw [if_neg hc23] at h
  by_cases hc24 : op = 0x38
  · rw [if_pos hc24] at h
    rw [withWorld_world (Option.some.inj h)]
  rw [if_neg hc24] at h
  by_cases hc25 : op = 0x39
  · rw [if_pos hc25] at h
    rw [withWorld_world (Option.some.inj h)]
  rw [if_neg hc25] at h
  by_cases hc26 : op = 0x50
  · rw [if_pos hc26] at h
    rw [withWorld_world (Option.some.inj h)]
  rw [if_neg hc26] at h
  by_cases hc27 : op = 0x51
  · rw [if_pos hc27] at h
    rw [withWorld_world (Option.some.inj h)]
  rw [if_neg hc27] at h
  by_cases hc28 : op = 0x52
  · rw [if_pos hc28] at h
    rw [withWorld_world (Option.some.inj h)]
  rw [if_neg hc28] at h
  by_cases hc29 : op = 0x53
  · rw [if_pos hc29] at h
    rw [withWorld_world (Option.some.inj h)]
  rw [if_neg hc29] at h
  by_cases hc30 : op = 0x54
  · rw [if_pos hc30] at h
    rw [sloadHandler_world _ _ _ _ (Option.some.inj h)]
  rw [if_neg hc30] at h
  by_cases hc31 : op = 0x55
  · rw [if_pos hc31] at h
    exact sstoreHandler_book _ _ _ _ (Option.some.inj h)
  rw [if_neg hc31] at h
  by_cases hc32 : op = 0x56
  · rw [if_pos hc32] at h
    rw [withWorld_world (Option.some.inj h)]
  rw [if_neg hc32] at h
  by_cases hc33 : op = 0x57
  · rw [if_pos hc33] at h
    rw [withWorld_world (Option.some.inj h)]
  rw [if_neg hc33] at h
  by_cases hc34 : op = 0x58
  · rw [if_pos hc34] at h
    rw [withWorld_world (Option.some.inj h)]
  rw [if_neg hc34] at h
  by_cases hc35 : op = 0x59
  · rw [if_pos hc35] at h
    rw [withWorld_world (Option.some.inj h)]
  rw [if_neg hc35] at h
  by_cases hc36 : op = 0x5a
  · rw [if_pos hc36] at h
    rw [withWorld_world (Option.some.inj h)]
  rw [if_neg hc36] at h
  by_cases hc37 : op = 0x5b
  · rw [if_pos hc37] at h
    rw [withWorld_world (Option.some.inj h)]
  rw [if_neg hc37] at h
  by_cases hc38 : op = 0x5f
  · rw [if_pos hc38] at h
    rw [withWorld_world (Option.some.inj h)]
  rw [if_neg hc38] at h
  by_cases hc39 : 0x60 ≤ op ∧ op ≤ 0x7f
  · rw [if_pos hc39] at h
    rw [withWorld_world (Option.some.inj h)]
  rw [if_neg hc39] at h
  by_cases hc40 : 0x80 ≤ op ∧ op ≤ 0x8f
  · rw [if_pos hc40] at h
    rw [withWorld_world (Option.some.inj h)]
  rw [if_neg hc40] at h
  by_cases hc41 : 0x90 ≤ op ∧ op ≤ 0x9f
  · rw [if_pos hc41] at h
    rw [withWorld_world (Option.some.inj h)]
  rw [if_neg hc41] at h
  by_cases hc42 : op = 0xf3
  · rw [if_pos hc42] at h
    rw [withWorld_world (Option.some.inj h)]
  rw [if_neg hc42] at h
  by_cases hc43 : op = 0xfd
  · rw [if_pos hc43] at h
    rw [withWorld_world (Option.some.inj h)]
  rw [if_neg hc43] at h
  exact Option.noConfusion h

theorem execLoop_book (g : Nat) (fuel : Nat) :
    ∀ (ctx : ExecutionContext) (w : WorldState) (res : ExecutionResult)
      (w2 : WorldState), execLoop g fuel ctx w = some (res, w2) →
      snapBook w2 = snapBook w := by
  induction fuel with
  | zero => intro ctx w res w2 h; exact Option.noConfusion h
  | succ n ih =>
    intro ctx w res w2 h
    simp only [execLoop] at h
    split at h
    · injection h with h1; injection h1 with hf hs; rw [← hs]
    · cases hop : runOpcode ctx.getCurrentOpcode ctx w with
      | none =>
        rw [hop] at h
        injection h with h1; injection h1 with hf hs; rw [← hs]
      | some rr =>
        rw [hop] at h
        cases rr with
        | error e =>
          injection h with h1; injection h1 with hf hs; rw [← hs]
        | ok p =>
          obtain ⟨c3, w3⟩ := p
          exact (ih _ _ _ _ h).trans (runOpcode_book _ _ _ _ _ hop)

theorem evmExecute_book (fuel : Nat) (code : Bytes) (w : WorldState) (env : Env)
    (gasLimit : Nat) (calldata : Bytes) (res : ExecutionResult) (w2 : WorldState)
    (h : evmExecute fuel code w env gasLimit calldata = some (res, w2)) :
    snapBook w2 = snapBook w :=
  execLoop_book _ _ _ _ _ _ h

theorem executeCall_book (fuel : Nat) (tx : Transaction) (w : WorldState)
    (env : Env) (toAddr : Addr) (res : ExecutionResult) (w2 : WorldState)
    (h : executeCall fuel tx w env toAddr = some (res, w2)) :
    snapBook w2 = snapBook w := by
  simp only [executeCall] at h
  split at h
  · injection h with h1; injection h1 with hf hs; rw [← hs]
  · exact evmExecute_book _ _ _ _ _ _ _ _ h

theorem executeCreate_book (genAddr : Addr → Nat → Addr) (fuel : Nat)
    (tx : Transaction) (w : WorldState) (env : Env) (res : ExecutionResult)
    (w2 : WorldState)
    (h : executeCreate genAddr fuel tx w env = .ok (some (res, w2))) :
    snapBook w2 = snapBook w := by
  simp only [executeCreate] at h
  cases hacc : w.getAccount tx.sender with
  | none => simp only [hacc] at h; exact Except.noConfusion h
  | some sender =>
    simp only [hacc] at h
    by_cases hexists : w.accountExists (genAddr tx.sender (sender.nonce - 1)) = true
    · rw [if_pos hexists] at h; exact Except.noConfusion h
    · rw [if_neg hexists] at h
      set CA := genAddr tx.sender (sender.nonce - 1) with hCA
      set ACT := ({ address := CA, nonce := 1, balance := 0, code := [], storage := [] } : Account) with hACT
      set wB := (if tx.value ≠ 0 then (w.putAccount ACT).addBalance CA tx.value else w.putAccount ACT) with hwB
      have hbB : snapBook wB = snapBook w := by
        rw [hwB]
        split
        · rw [snapBook_addBalance, snapBook_putAccount]
        · rw [snapBook_putAccount]
      cases hevm : evmExecute fuel tx.data wB { env with address := CA }
          tx.gasLimit [] with
      | none =>
        rw [hevm] at h
        injection h with h1
        exact Option.noConfusion h1
      | some p =>
        obtain ⟨result, w1⟩ := p
        rw [hevm] at h
        replace h : (if result.success = true then
            Except.ok (some (result, w1.setCode CA result.returnData))
          else
            (match w1.subBalance CA (w1.getBalance CA) with
            | Except.error e => Except.error (TxErr.worldErr e)
            | Except.ok wc => Except.ok (some (result, wc)) :
              Except TxErr (Option (ExecutionResult × WorldState)))) =
            Except.ok (some (res, w2)) := h
        have hb1 : snapBook w1 = snapBook wB :=
          evmExecute_book _ _ _ _ _ _ _ _ hevm
        by_cases hres : result.success = true
        · rw [if_pos hres] at h
          injection h with h1
          injection h1 with h2
          injection h2 with h3 h4
          rw [← h4, snapBook_setCode]
          exact hb1.trans hbB
        · rw [if_neg hres] at h
          cases hsub : w1.subBalance CA (w1.getBalance CA) with
          | error e => rw [hsub] at h; exact Except.noConfusion h
          | ok wc =>
            rw [hsub] at h
            injection h with h1
            injection h1 with h2
            injection h2 with h3 h4
            rw [← h4]
            exact ((snapBook_subBalance _ _ _ _ hsub).trans hb1).trans hbB

theorem txCatch_book (tx : Transaction) (w : WorldState) (wErr : WorldState)
    (r : ExecutionResult) (w2 : WorldState)
    (hbook : snapBook wErr = snapBook ((w.snapshot).2))
    (h : txCatch tx (w.snapshot).1 wErr = some (r, w2)) :
    w2.accounts = w.accounts ∧ w2.storages = w.storages := by
  have hs : getA wErr.snapshots (w.snapshot).1 =
      some { accounts := w.accounts, storages := w.storages,
             nextSnapshotId := w.nextSnapshotId + 1 } := by
    rw [show wErr.snapshots = ((w.snapshot).2).snapshots from
      congrArg Prod.fst hbook]
    exact getA_setA_self _ _ _
  unfold txCatch WorldState.revert at h
  rw [hs] at h
  injection h with h1
  injection h1 with h2 h3
  rw [← h3]
  exact ⟨rfl, rfl⟩

theorem revert_restores (w wErr : WorldState)
    (hbook : snapBook wErr = snapBook ((w.snapshot).2)) :
    (wErr.revert (w.snapshot).1).map (fun w6 => (w6.accounts, w6.storages)) =
      .ok (w.accounts, w.storages) := by
  have hs : getA wErr.snapshots (w.snapshot).1 =
      some { accounts := w.accounts, storages := w.storages,
             nextSnapshotId := w.nextSnapshotId + 1 } := by
    rw [show wErr.snapshots = ((w.snapshot).2).snapshots from
      congrArg Prod.fst hbook]
    exact getA_setA_self _ _ _
  unfold WorldState.revert
  rw [hs]
  rfl

theorem transfer_book (w1 wt : WorldState) (tx : Transaction)
    (h : (match tx.toAddr with
      | some toAddr =>
        if tx.value ≠ 0 then
          match w1.subBalance tx.sender tx.value with
          | Except.error e => Except.error e
          | Except.ok wa => Except.ok (wa.addBalance toAddr tx.value)
        else Except.ok w1
      | none => Except.ok w1) = Except.ok wt) :
    snapBook wt = snapBook w1 := by
  split at h
  next toAddr htx =>
    split at h
    · split at h
      next e heq => exact Except.noConfusion h
      next wa heq =>
        injection h with h1
        rw [← h1, snapBook_addBalance]
        exact snapBook_subBalance _ _ _ _ heq
    · injection h with h1; rw [← h1]
  next htx => injection h with h1; rw [← h1]

theorem executed_book (genAddr : Addr → Nat → Addr) (fuel : Nat)
    (tx : Transaction) (w3 : WorldState) (env : Env) (result : ExecutionResult)
    (w4 : WorldState)
    (h : (match tx.toAddr with
      | none => executeCreate genAddr fuel tx w3 env
      | some toAddr => Except.ok (executeCall fuel tx w3 env toAddr)) =
      Except.ok (some (result, w4))) :
    snapBook w4 = snapBook w3 := by
  split at h
  next x htx => exact executeCreate_book _ _ _ _ _ _ _ h
  next x toAddr htx =>
    injection h with h1
    exact executeCall_book _ _ _ _ _ _ _ h1

theorem endgame_book (tx : Transaction) (w : WorldState)
    (result : ExecutionResult) (w4 : WorldState) (r : ExecutionResult)
    (w2 : WorldState) (hb4 : snapBook w4 = snapBook ((w.snapshot).2))
    (hfail : r.success = false)
    (h : (if result.success = true then
        some (result, (w4.addBalance tx.sender
          ((tx.gasLimit - result.gasUsed) * tx.gasPrice)).commitWith (w.snapshot).1)
      else
        match (w4.addBalance tx.sender
            ((tx.gasLimit - result.gasUsed) * tx.gasPrice)).revert (w.snapshot).1 with
        | Except.error a => none
        | Except.ok w6 => some (result, w6)) = some (r, w2)) :
    w2.accounts = w.accounts ∧ w2.storages = w.storages := by
  split at h
  next hres =>
    injection h with h1
    injection h1 with h2 h3
    rw [← h2] at hfail
    exact Bool.noConfusion (hres.symm.trans hfail)
  next hres =>
    have hb5 : snapBook (w4.addBalance tx.sender
        ((tx.gasLimit - result.gasUsed) * tx.gasPrice)) =
        snapBook ((w.snapshot).2) := by
      rw [snapBook_addBalance]; exact hb4
    have hrev := revert_restores w _ hb5
    split at h
    next e heq => exact Option.noConfusion h
    next w6 heq =>
      injection h with h1
      injection h1 with h2 h3
      rw [heq] at hrev
      injection hrev with h4
      rw [← h3]
      exact ⟨congrArg Prod.fst h4, congrArg Prod.snd h4⟩

/-- C1 amended: whenever `executeTransaction` reports failure, the
snapshot revert rolls back every World State change — the gas debit, the
value transfer and the nonce increment included — so the final observable
world (accounts and storage) is byte-identical to the pre-transaction
world; in particular the sender's nonce does not advance and no gas is
charged. -/
theorem failed_execution_fully_reverted (genAddr : Addr → Nat → Addr)
    (fuel : Nat) (tx : Transaction) (w : WorldState) (block : BlockCtx)
    (chainId : Nat) (r : ExecutionResult) (w2 : WorldState)
    (h : executeTransaction genAddr fuel tx w block chainId = some (r, w2))
    (hfail : r.success = false) :
    w2.accounts = w.accounts ∧ w2.storages = w.storages := by
  simp only [executeTransaction] at h
  split at h
  next x e heq => exact txCatch_book tx w _ r w2 rfl h
  next x heq =>
    split at h
    next x2 e2 heq2 => exact txCatch_book tx w _ r w2 rfl h
    next x2 w1 heq2 =>
      have hb1 : snapBook w1 = snapBook ((w.snapshot).2) :=
        snapBook_subBalance _ _ _ _ heq2
      split at h
      next x3 e3 heq3 => exact txCatch_book tx w _ r w2 hb1 h
      next x3 wt heq3 =>
        have hbT : snapBook wt = snapBook ((w.snapshot).2) :=
          (transfer_book w1 wt tx heq3).trans hb1
        split at h
        next x4 e4 heq4 =>
          exact txCatch_book tx w _ r w2
            (by rw [snapBook_incrementNonce]; exact hbT) h
        next x4 heq4 => exact Option.noConfusion h
        next x4 result w4 heq4 =>
          have hb4 : snapBook w4 = snapBook ((w.snapshot).2) :=
            (executed_book _ _ _ _ _ _ _ heq4).trans
              (by rw [snapBook_incrementNonce]; exact hbT)
          exact endgame_book tx w result w4 r w2 hb4 hfail h

/-- C1 counterexample: a validated call that fails in the VM (the callee's
only byte, `0xfe`, has no handler, so the frame reverts).  The claim says
the sender's nonce must then have increased by exactly one and the gas
must remain paid; the code instead reverts the snapshot without
re-applying the gas debit or the nonce increment, so the sender's nonce is
still 0 and the balance still 100. -/
theorem failed_execution_keeps_nonce_and_balance :
    (executeTransaction (fun _ _ => []) 5 c1Tx c1World c1Block 1).map
        (fun p => (p.1.success, p.2.getNonce [1], p.2.getBalance [1])) =
      some (false, 0, 100) ∧
    ¬ ((executeTransaction (fun _ _ => []) 5 c1Tx c1World c1Block 1).map
        (fun p => p.2.getNonce [1]) = some (c1World.getNonce [1] + 1)) :=
  ⟨by decide, by decide⟩

/-- C1 witness (for the amended theorem): the failed-call scenario run
end-to-end; the theorem applied to it yields the restored accounts and
storage. -/
theorem failed_execution_fully_reverted_witness :
    executeTransaction (fun _ _ => []) 5 c1Tx c1World c1Block 1 =
      some (c1Res, c1Final) ∧
    c1Final.accounts = c1World.accounts ∧ c1Final.storages = c1World.storages :=
  ⟨by decide,
    failed_execution_fully_reverted (fun _ _ => []) 5 c1Tx c1World c1Block 1
      c1Res c1Final (by decide) (by decide)⟩

theorem getA_setA_ne {α β : Type} [DecidableEq α] (l : List (α × β)) (key k : α)
    (v : β) (h : k ≠ key) : getA (setA l key v) k = getA l k := by
  induction l with
  | nil => simp [getA, setA, Ne.symm h]
  | cons hd tl ih =>
    obtain ⟨k0, v0⟩ := hd
    by_cases h0 : k0 = key
    · subst h0
      simp [getA, setA, Ne.symm h]
    · simp only [setA, if_neg h0, getA]
      by_cases h1 : k0 = k
      · simp [h1]
      · simp [h1, ih]

theorem getA_eraseA_self {α β : Type} [DecidableEq α] (l : List (α × β)) (k : α) :
    getA (eraseA l k) k = none := by
  induction l with
  | nil => simp [eraseA, getA]
  | cons hd tl ih =>
    obtain ⟨k0, v0⟩ := hd
    by_cases h0 : k0 = k
    · simp [eraseA, h0, ih]
    · simp [eraseA, h0, getA, ih]

theorem getA_eraseA_ne {α β : Type} [DecidableEq α] (l : List (α × β)) (key k : α)
    (h : k ≠ key) : getA (eraseA l key) k = getA l k := by
  induction l with
  | nil => simp [eraseA, getA]
  | cons hd tl ih =>
    obtain ⟨k0, v0⟩ := hd
    by_cases h0 : k0 = key
    · subst h0
      simp [eraseA, getA, Ne.symm h, ih]
    · simp only [eraseA, if_neg h0, getA]
      by_cases h1 : k0 = k
      · simp [h1]
      · simp [h1, ih]

theorem setA_length_new {α β : Type} [DecidableEq α] (l : List (α × β)) (k : α)
    (v : β) (h : getA l k = none) : (setA l k v).length = l.length + 1 := by
  induction l with
  | nil => simp [setA]
  | cons hd tl ih =>
    obtain ⟨k0, v0⟩ := hd
    by_cases h0 : k0 = k
    · simp [getA, h0] at h
    · simp only [getA, if_neg h0] at h
      simp [setA, h0, ih h]

theorem enforcePoolSizeLimit_noop (p : TransactionPool)
    (h : p.pending.length + p.queued.length ≤ p.config.maxPoolSize) :
    TransactionPool.enforcePoolSizeLimit p = p := by
  unfold TransactionPool.enforcePoolSizeLimit
  rw [if_pos h]

theorem promote_step_stable (hsh : Nat) (t : PoolTransaction)
    (p : TransactionPool) (h0 : Nat)
    (hpend : getA p.pending hsh = some t) (hq : getA p.queued hsh = none) :
    getA ((match getA p.queued h0 with
      | none => p
      | some t0 =>
        { p with queued := eraseA p.queued h0,
                 pending := setA p.pending h0 t0 }) : TransactionPool).pending hsh =
        some t ∧
    getA ((match getA p.queued h0 with
      | none => p
      | some t0 =>
        { p with queued := eraseA p.queued h0,
                 pending := setA p.pending h0 t0 }) : TransactionPool).queued hsh =
        none := by
  cases hg : getA p.queued h0 with
  | none => exact ⟨hpend, hq⟩
  | some t0 =>
    have hne : hsh ≠ h0 := by
      intro hcontra
      rw [hcontra, hg] at hq
      exact Option.noConfusion hq
    constructor
    · show getA (setA p.pending h0 t0) hsh = some t
      rw [getA_setA_ne _ _ _ _ hne, hpend]
    · show getA (eraseA p.queued h0) hsh = none
      rw [getA_eraseA_ne _ _ _ hne, hq]

theorem promote_fold_stable (hsh : Nat) (t : PoolTransaction) :
    ∀ (hashes : List Nat) (p : TransactionPool),
    getA p.pending hsh = some t → getA p.queued hsh = none →
    getA (hashes.foldl
      (fun p hash =>
        match getA p.queued hash with
        | none => p
        | some u =>
          { p with queued := eraseA p.queued hash,
                   pending := setA p.pending hash u })
      p).pending hsh = some t := by
  intro hashes
  induction hashes with
  | nil => intro p hpend hq; exact hpend
  | cons h0 rest ih =>
    intro p hpend hq
    obtain ⟨h1, h2⟩ := promote_step_stable hsh t p h0 hpend hq
    exact ih _ h1 h2

theorem promote_fold_mem (hsh : Nat) (t : PoolTransaction) :
    ∀ (hashes : List Nat) (p : TransactionPool),
    hsh ∈ hashes → getA p.queued hsh = some t →
    getA (hashes.foldl
      (fun p hash =>
        match getA p.queued hash with
        | none => p
        | some u =>
          { p with queued := eraseA p.queued hash,
                   pending := setA p.pending hash u })
      p).pending hsh = some t := by
  intro hashes
  induction hashes with
  | nil => intro p hmem; exact absurd hmem (List.not_mem_nil hsh)
  | cons h0 rest ih =>
    intro p hmem hq
    rw [List.foldl_cons]
    by_cases he : h0 = hsh
    · subst he
      rw [hq]
      exact promote_fold_stable h0 t rest _
        (getA_setA_self _ _ _) (getA_eraseA_self _ _)
    · have hmem2 : hsh ∈ rest := by
        cases List.mem_cons.mp hmem with
        | inl h => exact absurd h.symm he
        | inr h => exact h
      cases hg : getA p.queued h0 with
      | none =>
        exact ih p hmem2 hq
      | some t0 =>
        refine ih _ hmem2 ?_
        show getA (eraseA p.queued h0) hsh = some t
        rw [getA_eraseA_ne _ _ _ (fun hh => he hh.symm), hq]

/-- C9: for a transaction passing the pool's admission checks (fee
validation, no duplicate hash, sender under the per-account cap, pool
under capacity), `addTransaction` places it in `pending` exactly when its
nonce equals the pool's expected next nonce for the sender, in `queued`
exactly when its nonce is strictly greater, and rejects it as stale
(pool unchanged but for the priority counter) when its nonce is strictly
less; moreover `removeTransactions` on a removed entry re-runs promotion
for the affected sender, and `promoteQueuedTransactions` moves every
queued entry of the sender whose nonce equals the expected next nonce
into `pending`. -/
theorem pool_nonce_placement_and_promotion
    (pool : TransactionPool) (hashf : Transaction → Nat) (now : Nat)
    (tx : Transaction)
    (hval : TransactionPool.validatePoolTransaction pool.config tx = true)
    (hdup1 : getA pool.pending (hashf tx) = none)
    (hdup2 : getA pool.queued (hashf tx) = none)
    (hacc : ((getA pool.accountTransactions tx.sender).getD []).length <
      pool.config.maxAccountTransactions)
    (hsize : pool.pending.length + pool.queued.length < pool.config.maxPoolSize) :
    (tx.nonce = TransactionPool.getCurrentNonce pool tx.sender →
      (TransactionPool.addTransaction pool hashf now tx).2 = true ∧
      getA (TransactionPool.addTransaction pool hashf now tx).1.pending
          (hashf tx) =
        some { transaction := tx, hash := hashf tx, addedTime := now,
               gasPrice := tx.gasPrice, gasLimit := tx.gasLimit,
               sender := tx.sender, nonce := tx.nonce,
               priority := pool.nextPriority } ∧
      (TransactionPool.addTransaction pool hashf now tx).1.queued =
        pool.queued) ∧
    (TransactionPool.getCurrentNonce pool tx.sender < tx.nonce →
      (TransactionPool.addTransaction pool hashf now tx).2 = true ∧
      getA (TransactionPool.addTransaction pool hashf now tx).1.queued
          (hashf tx) =
        some { transaction := tx, hash := hashf tx, addedTime := now,
               gasPrice := tx.gasPrice, gasLimit := tx.gasLimit,
               sender := tx.sender, nonce := tx.nonce,
               priority := pool.nextPriority } ∧
      (TransactionPool.addTransaction pool hashf now tx).1.pending =
        pool.pending) ∧
    (tx.nonce < TransactionPool.getCurrentNonce pool tx.sender →
      TransactionPool.addTransaction pool hashf now tx =
        ({ pool with nextPriority := pool.nextPriority + 1 }, false)) ∧
    (∀ (q : TransactionPool) (hash : Nat) (t0 : PoolTransaction),
      getA q.pending hash = some t0 →
      TransactionPool.removeTransactions q [hash] =
        TransactionPool.promoteQueuedTransactions
          { q with pending := eraseA q.pending hash,
                   queued := eraseA q.queued hash,
                   accountTransactions :=
                     TransactionPool.removeAccountTx q.accountTransactions
                       t0.sender hash }
          t0.sender) ∧
    (∀ (q : TransactionPool) (sender : Addr) (t : PoolTransaction),
      t ∈ (getA q.accountTransactions sender).getD [] →
      getA q.queued t.hash = some t →
      t.nonce = TransactionPool.getCurrentNonce q sender →
      getA (TransactionPool.promoteQueuedTransactions q sender).pending
        t.hash = some t) := by
  have hv : ¬ (TransactionPool.validatePoolTransaction pool.config tx = false) := by
    intro h
    rw [hval] at h
    exact Bool.noConfusion h
  have hdupif : ¬ ((getA pool.pending (hashf tx)).isSome ∨
      (getA pool.queued (hashf tx)).isSome) := by
    rw [hdup1, hdup2]
    simp
  have haccif : ¬ (pool.config.maxAccountTransactions ≤
      ((getA pool.accountTransactions tx.sender).getD []).length) :=
    Nat.not_le.mpr hacc
  have hcn : TransactionPool.getCurrentNonce
      { config := pool.config, pending := pool.pending, queued := pool.queued,
        accountTransactions := pool.accountTransactions,
        nextPriority := pool.nextPriority + 1 } tx.sender =
      TransactionPool.getCurrentNonce pool tx.sender := rfl
  refine ⟨?_, ?_, ?_, ?_, ?_⟩
  · intro hn
    have heq : TransactionPool.addTransaction pool hashf now tx =
        (TransactionPool.enforcePoolSizeLimit
          { config := pool.config,
            pending := setA pool.pending (hashf tx)
              { transaction := tx, hash := hashf tx, addedTime := now,
                gasPrice := tx.gasPrice, gasLimit := tx.gasLimit,
                sender := tx.sender, nonce := tx.nonce,
                priority := pool.nextPriority },
            queued := pool.queued,
            accountTransactions := setA pool.accountTransactions tx.sender
              (((getA pool.accountTransactions tx.sender).getD []) ++
                [{ transaction := tx, hash := hashf tx, addedTime := now,
                   gasPrice := tx.gasPrice, gasLimit := tx.gasLimit,
                   sender := tx.sender, nonce := tx.nonce,
                   priority := pool.nextPriority }]),
            nextPriority := pool.nextPriority + 1 }, true) := by
      unfold TransactionPool.addTransaction
      rw [if_neg hv, if_neg hdupif]
      simp only [hcn, if_neg haccif, if_pos hn]
    have hnoop := enforcePoolSizeLimit_noop
      { config := pool.config,
        pending := setA pool.pending (hashf tx)
          { transaction := tx, hash := hashf tx, addedTime := now,
            gasPrice := tx.gasPrice, gasLimit := tx.gasLimit,
            sender := tx.sender, nonce := tx.nonce,
            priority := pool.nextPriority },
        queued := pool.queued,
        accountTransactions := setA pool.accountTransactions tx.sender
          (((getA pool.accountTransactions tx.sender).getD []) ++
            [{ transaction := tx, hash := hashf tx, addedTime := now,
               gasPrice := tx.gasPrice, gasLimit := tx.gasLimit,
               sender := tx.sender, nonce := tx.nonce,
               priority := pool.nextPriority }]),
        nextPriority := pool.nextPriority + 1 }
      (by
        show (setA pool.pending (hashf tx) _).length + pool.queued.length ≤
          pool.config.maxPoolSize
        rw [setA_length_new _ _ _ hdup1]
        omega)
    rw [heq, hnoop]
    exact ⟨rfl, getA_setA_self _ _ _, rfl⟩
  · intro hn
    have hne : ¬ (tx.nonce = TransactionPool.getCurrentNonce pool tx.sender) := by
      omega
    have heq : TransactionPool.addTransaction pool hashf now tx =
        (TransactionPool.enforcePoolSizeLimit
          { config := pool.config,
            pending := pool.pending,
            queued := setA pool.queued (hashf tx)
              { transaction := tx, hash := hashf tx, addedTime := now,
                gasPrice := tx.gasPrice, gasLimit := tx.gasLimit,
                sender := tx.sender, nonce := tx.nonce,
                priority := pool.nextPriority },
            accountTransactions := setA pool.accountTransactions tx.sender
              (((getA pool.accountTransactions tx.sender).getD []) ++
                [{ transaction := tx, hash := hashf tx, addedTime := now,
                   gasPrice := tx.gasPrice, gasLimit := tx.gasLimit,
                   sender := tx.sender, nonce := tx.nonce,
                   priority := pool.nextPriority }]),
            nextPriority := pool.nextPriority + 1 }, true) := by
      unfold TransactionPool.addTransaction
      rw [if_neg hv, if_neg hdupif]
      simp only [hcn, if_neg haccif, if_neg hne, if_pos hn]
    have hnoop := enforcePoolSizeLimit_noop
      { config := pool.config,
        pending := pool.pending,
        queued := setA pool.queued (hashf tx)
          { transaction := tx, hash := hashf tx, addedTime := now,
            gasPrice := tx.gasPrice, gasLimit := tx.gasLimit,
            sender := tx.sender, nonce := tx.nonce,
            priority := pool.nextPriority },
        accountTransactions := setA pool.accountTransactions tx.sender
          (((getA pool.accountTransactions tx.sender).getD []) ++
            [{ transaction := tx, hash := hashf tx, addedTime := now,
               gasPrice := tx.gasPrice, gasLimit := tx.gasLimit,
               sender := tx.sender, nonce := tx.nonce,
               priority := pool.nextPriority }]),
        nextPriority := pool.nextPriority + 1 }
      (by
        show pool.pending.length + (setA pool.queued (hashf tx) _).length ≤
          pool.config.maxPoolSize
        rw [setA_length_new _ _ _ hdup2]
        omega)
    rw [heq, hnoop]
    exact ⟨rfl, getA_setA_self _ _ _, rfl⟩
  · intro hn
    have hne : ¬ (tx.nonce = TransactionPool.getCurrentNonce pool tx.sender) := by
      omega
    have hnlt : ¬ (TransactionPool.getCurrentNonce pool tx.sender < tx.nonce) := by
      omega
    unfold TransactionPool.addTransaction
    rw [if_neg hv, if_neg hdupif]
    simp only [hcn, if_neg haccif, if_neg hne, if_neg hnlt]
  · intro q hash t0 hfound
    have hstep : TransactionPool.removeTransactions q [hash] =
        TransactionPool.removeOnePoolTx q hash := rfl
    rw [hstep]
    unfold TransactionPool.removeOnePoolTx
    rw [hfound]
    rfl
  · intro q sender t hmem hq hnonce
    unfold TransactionPool.promoteQueuedTransactions
    refine promote_fold_mem t.hash t _ q ?_ hq
    refine List.mem_map.mpr ⟨t, ?_, rfl⟩
    refine List.mem_filter.mpr ⟨hmem, ?_⟩
    simp [hq, hnonce]

/-- The placement theorem at a concrete instance: on an empty pool the
matching-nonce transaction is admitted and lands in `pending`. -/
theorem pool_nonce_placement_and_promotion_witness :
    (TransactionPool.addTransaction c9Pool (fun _ => 0) 0 c9Tx).2 = true ∧
    getA (TransactionPool.addTransaction c9Pool (fun _ => 0) 0 c9Tx).1.pending
        0 =
      some { transaction := c9Tx, hash := 0, addedTime := 0, gasPrice := 2,
             gasLimit := 100, sender := [7], nonce := 0, priority := 0 } := by
  have h := (pool_nonce_placement_and_promotion c9Pool (fun _ => 0) 0 c9Tx
    (by decide) (by rfl) (by rfl) (by decide) (by decide)).1 (by decide)
  exact ⟨h.1, h.2.1⟩

theorem shouldReorg_no_chain (nb tip : BlockHeader) :
    (shouldReorg nb tip).newChain = none := by
  unfold shouldReorg
  by_cases h1 : nb.number ≤ tip.number
  · rw [if_pos h1]
  · rw [if_neg h1]
    by_cases h2 : tip.number + 1 < nb.number
    · rw [if_pos h2]
    · rw [if_neg h2]

theorem handleReorg_no_chain (txHash : Transaction → Nat)
    (fc : ForkChoiceResult) (displaced : List ChainBlock)
    (pool : TransactionPool) (h : fc.newChain = none) :
    handleReorg txHash fc displaced pool =
      Except.error "Invalid fork choice for reorg" := by
  unfold handleReorg
  rw [h]

/-- C3 counterexample: no hash function can make the specified rule true —
`shouldReorg` never reads the parent hash, so of two height-`tip+1`
candidates with different parent hashes (at most one of which can match
the tip's hash) both get `extend`, where the specification demands
`ignore` for the mismatched one. -/
theorem shouldReorg_extend_despite_foreign_parent :
    ¬ ∃ hashFn : BlockHeader → List Nat,
      ∀ (nb tip : BlockHeader), nb.number = tip.number + 1 →
        nb.parentHash ≠ hashFn tip →
        (shouldReorg nb tip).action = ReorgAction.ignore := by
  rintro ⟨hashFn, hcl⟩
  by_cases hh : c3ChildA.parentHash = hashFn zeroHeader
  · have hb : c3ChildB.parentHash ≠ hashFn zeroHeader := by
      rw [← hh]
      decide
    have hres := hcl c3ChildB zeroHeader (by decide) hb
    exact absurd hres (by decide)
  · have hres := hcl c3ChildA zeroHeader (by decide) hh
    exact absurd hres (by decide)

/-- C3 (amended): fork choice reads only the header numbers: the result
is `extend` exactly when the new block sits one above the tip, whatever
its parent hash — never `ignore` for a height-`tip+1` block with a
foreign parent. -/
theorem shouldReorg_extend_iff (nb tip : BlockHeader) :
    (shouldReorg nb tip).action = ReorgAction.extend ↔
      nb.number = tip.number + 1 := by
  unfold shouldReorg
  by_cases h1 : nb.number ≤ tip.number
  · rw [if_pos h1]
    constructor
    · intro h
      exact absurd h (by decide)
    · intro h
      exact absurd h (by omega)
  · rw [if_neg h1]
    by_cases h2 : tip.number + 1 < nb.number
    · rw [if_pos h2]
      constructor
      · intro h
        exact absurd h (by decide)
      · intro h
        exact absurd h (by omega)
    · rw [if_neg h2]
      constructor
      · intro _
        omega
      · intro _
        rfl

/-- C4: the reorg path never restores displaced transactions.  First, the
fork-choice result `shouldReorg` produces for a reorg carries no new
chain, so `handleReorg` always throws `Invalid fork choice for reorg`.
Second, even with the chain data supplied by hand, the walk back from the
tip calls `removeTransactions` on each displaced block's transactions
(under a comment claiming to add them back), so a displaced transaction
that was in the pool is absent afterwards. -/
theorem reorg_removes_displaced_transactions :
    (∀ (nb tip : BlockHeader) (displaced : List ChainBlock)
        (pool : TransactionPool) (txHash : Transaction → Nat),
      (shouldReorg nb tip).action = ReorgAction.reorg →
      handleReorg txHash (shouldReorg nb tip) displaced pool =
        Except.error "Invalid fork choice for reorg") ∧
    ((handleReorg c4Hash c4Fork [c4Block] c4Pool).toOption.isSome = true ∧
      getA ((handleReorg c4Hash c4Fork [c4Block] c4Pool).toOption.getD
        c4Pool).pending (c4Hash c4Tx) = none ∧
      getA ((handleReorg c4Hash c4Fork [c4Block] c4Pool).toOption.getD
        c4Pool).queued (c4Hash c4Tx) = none ∧
      getA c4Pool.pending (c4Hash c4Tx) = some c4Entry) := by
  constructor
  · intro nb tip displaced pool txHash _
    exact handleReorg_no_chain txHash _ displaced pool (shouldReorg_no_chain nb tip)
  · decide

/-- The reorg theorem at a concrete fork-choice result: the consensus
output for a two-ahead block makes `handleReorg` throw. -/
theorem reorg_removes_displaced_transactions_witness :
    handleReorg c4Hash (shouldReorg c4NewHeader zeroHeader) [c4Block] c4Pool =
      Except.error "Invalid fork choice for reorg" :=
  reorg_removes_displaced_transactions.1 c4NewHeader zeroHeader [c4Block] c4Pool
    c4Hash (by decide)

set_option maxRecDepth 10000 in
/-- C8: the header round trip is broken — `encodeList` emits a long-form
prefix (`0xf9`) for the 341-byte header payload, which `decodeRLPList`
misreads as a short form of payload length `0xf9 - 0xc0 = 57`, truncating
and shifting every field, and the empty `timestamp` slice makes
`bytesToBigint` throw: deserializing the serialization of the all-zero
header returns no header at all. -/
theorem header_roundtrip_fails :
    deserializeBlockHeader (serializeBlockHeader zeroHeader) =
      Except.error "Cannot convert 0x to a BigInt" ∧
    ∀ h : BlockHeader,
      deserializeBlockHeader (serializeBlockHeader zeroHeader) ≠
        Except.ok h := by
  have heval : deserializeBlockHeader (serializeBlockHeader zeroHeader) =
      Except.error "Cannot convert 0x to a BigInt" := by rfl
  refine ⟨heval, fun h hcontra => ?_⟩
  rw [heval] at hcontra
  exact Except.noConfusion hcontra

theorem simulate_gas (tx : Transaction) :
    (simulateTransactionExecution tx).gasUsed = tx.gasLimit / 2 ∧
    (simulateTransactionExecution tx).success = true := by
  unfold simulateTransactionExecution
  cases tx.toAddr <;> exact ⟨rfl, rfl⟩

theorem bpExecuteTransaction_gas (w : WorldState) (tx : Transaction)
    (r : BPTxResult) (w2 : WorldState)
    (h : bpExecuteTransaction w tx = (r, w2)) :
    (r.success = true → r.gasUsed = tx.gasLimit / 2) ∧
    (r.success = false → r.gasUsed = 0) := by
  simp only [bpExecuteTransaction] at h
  split at h
  · split at h
    all_goals
      injection h with h1 h2
      subst h1
      exact ⟨fun hs => Bool.noConfusion hs, fun _ => rfl⟩
  · split at h
    · split at h
      all_goals
        injection h with h1 h2
        subst h1
        exact ⟨fun hs => Bool.noConfusion hs, fun _ => rfl⟩
    · split at h
      · injection h with h1 h2
        subst h1
        exact ⟨fun hs => Bool.noConfusion hs, fun _ => rfl⟩
      · split at h
        · rename_i hfalse
          rw [(simulate_gas tx).2] at hfalse
          exact absurd hfalse (by decide)
        · injection h with h1 h2
          subst h1
          exact ⟨fun _ => (simulate_gas tx).1, fun hs => Bool.noConfusion hs⟩

theorem createBlockLoop_gas (gasLimit : Nat) :
    ∀ (entries : List PoolTransaction) (totalGas : Nat) (w : WorldState),
    (∀ e ∈ entries, e.gasLimit = e.transaction.gasLimit) →
    totalGas ≤ gasLimit →
    (createBlockLoop gasLimit entries totalGas w).2.1 =
      totalGas + sumSuccessGas (createBlockLoop gasLimit entries totalGas w).1 ∧
    (createBlockLoop gasLimit entries totalGas w).2.1 ≤ gasLimit := by
  intro entries
  induction entries with
  | nil =>
    intro totalGas w _ hle
    refine ⟨?_, ?_⟩
    · simp [createBlockLoop, sumSuccessGas]
    · simpa [createBlockLoop] using hle
  | cons e rest ih =>
    intro totalGas w hwf hle
    by_cases hbreak : gasLimit < totalGas + e.gasLimit
    · simp only [createBlockLoop, if_pos hbreak]
      exact ⟨by simp [sumSuccessGas], hle⟩
    · simp only [createBlockLoop, if_neg hbreak]
      obtain ⟨hgs, hgf⟩ := bpExecuteTransaction_gas w e.transaction
        (bpExecuteTransaction w e.transaction).1
        (bpExecuteTransaction w e.transaction).2 rfl
      by_cases hs : (bpExecuteTransaction w e.transaction).1.success = true
      · have hgu : (bpExecuteTransaction w e.transaction).1.gasUsed =
            e.transaction.gasLimit / 2 := hgs hs
        have hle2 : totalGas + (bpExecuteTransaction w e.transaction).1.gasUsed ≤
            gasLimit := by
          have he := hwf e (List.mem_cons_self e rest)
          have hhalf : e.transaction.gasLimit / 2 ≤ e.transaction.gasLimit :=
            Nat.div_le_self _ _
          omega
        obtain ⟨ih1, ih2⟩ := ih
          (totalGas + (bpExecuteTransaction w e.transaction).1.gasUsed)
          (bpExecuteTransaction w e.transaction).2
          (fun x hx => hwf x (List.mem_cons_of_mem e hx)) hle2
        simp only [if_pos hs, sumSuccessGas, List.map_cons, List.sum_cons]
        simp only [sumSuccessGas] at ih1
        refine ⟨?_, ih2⟩
        omega
      · have hfalse : (bpExecuteTransaction w e.transaction).1.success = false :=
          Bool.not_eq_true _ ▸ Bool.eq_false_iff.mpr hs
        obtain ⟨ih1, ih2⟩ := ih totalGas (bpExecuteTransaction w e.transaction).2
          (fun x hx => hwf x (List.mem_cons_of_mem e hx)) hle
        simp only [if_neg hs, sumSuccessGas, List.map_cons, List.sum_cons]
        simp only [sumSuccessGas] at ih1
        refine ⟨?_, ih2⟩
        omega

/-- C7 (amended): during block creation a transaction whose execution
fails contributes no gas to the block — the loop accumulates only
successful results' gas (and a failed internal execution itself reports
zero gas) — and does not invalidate the block; the produced header's
`gasUsed` equals the sum of the successful included executions' gas and
is at most the block gas limit. -/
theorem block_gas_sums_successful_executions
    (pool : TransactionPool) (w0 : WorldState) (options : BPOptions)
    (ph txr rcr : List Nat) (pn ts : Nat) (validator : Addr)
    (sigf : BlockHeader → List Nat)
    (hwf : ∀ e ∈ TransactionPool.getTransactionsForBlock pool options.gasLimit,
      e.gasLimit = e.transaction.gasLimit) :
    (createBlock pool w0 options ph txr rcr pn ts validator
        sigf).1.header.gasUsed =
      sumSuccessGas
        (createBlockLoop options.gasLimit
          (TransactionPool.getTransactionsForBlock pool options.gasLimit) 0
          (w0.snapshot).2).1 ∧
    (createBlock pool w0 options ph txr rcr pn ts validator
        sigf).1.header.gasUsed ≤ options.gasLimit := by
  obtain ⟨h1, h2⟩ := createBlockLoop_gas options.gasLimit
    (TransactionPool.getTransactionsForBlock pool options.gasLimit) 0
    (w0.snapshot).2 hwf (Nat.zero_le _)
  have hgu : (createBlock pool w0 options ph txr rcr pn ts validator
      sigf).1.header.gasUsed =
      (createBlockLoop options.gasLimit
        (TransactionPool.getTransactionsForBlock pool options.gasLimit) 0
        (w0.snapshot).2).2.1 := by
    simp only [createBlock]
    rw [if_neg (Nat.succ_ne_zero pn)]
  rw [hgu]
  exact ⟨by omega, h2⟩

/-- The gas-accounting theorem at the stale-nonce scenario. -/
theorem block_gas_sums_successful_executions_witness :
    (createBlock c7Pool c7World c7Options [] [] [] 0 0 []
        (fun _ => [])).1.header.gasUsed =
      sumSuccessGas
        (createBlockLoop c7Options.gasLimit
          (TransactionPool.getTransactionsForBlock c7Pool c7Options.gasLimit) 0
          (c7World.snapshot).2).1 ∧
    (createBlock c7Pool c7World c7Options [] [] [] 0 0 []
        (fun _ => [])).1.header.gasUsed ≤ c7Options.gasLimit :=
  block_gas_sums_successful_executions c7Pool c7World c7Options [] [] [] 0 0 []
    (fun _ => []) (by decide)

/-- C7 counterexample: the stale-nonce transaction's execution fails with
zero gas, yet the block is produced, includes the transaction, and its
header reports zero gas used — the failed transaction's 100-unit gas
limit is nowhere accumulated. -/
theorem failed_tx_adds_no_block_gas :
    (bpExecuteTransaction (c7World.snapshot).2 c7BadTx).1 =
      { success := false, gasUsed := 0 } ∧
    (createBlock c7Pool c7World c7Options [] [] [] 0 0 []
      (fun _ => [])).1.transactions = [c7BadTx] ∧
    (createBlock c7Pool c7World c7Options [] [] [] 0 0 []
      (fun _ => [])).1.header.gasUsed = 0 ∧
    c7BadTx.gasLimit = 100 := by
  decide

end HasChain
